import Mathlib

/-!
Shallow embedding of the UserHandle cog (`src/user_handle/user_handle.py`):
a reconciliation engine that keeps one "sync" role per member equal to the
member's display name and maintains admin-gated "custom handle" roles.

Remote (Discord) effects are embedded as explicit state passing over a
`GState` (guild roles, members, per-guild assignment store, blacklist),
plus a trace of attempted remote calls (`RCall`).  Whether a remote call
succeeds is decided by an environment record, mirroring the
`try/except (discord.Forbidden, discord.HTTPException)` wrappers in the
source.  Python string operations (`strip`, `lower`, `int(...)`,
truthiness of `or`) are embedded as executable character-list functions.
-/

namespace UserHandle

/-- Python `s.strip()` (whitespace trim at both ends). -/
def pyStrip (s : String) : String :=
  List.asString (((s.data.dropWhile Char.isWhitespace).reverse.dropWhile Char.isWhitespace).reverse)

/-- Python `s.lower()`. -/
def pyLower (s : String) : String := List.asString (s.data.map Char.toLower)

/-- Python `a or b` on strings (empty string is falsy). -/
def strOr (a b : String) : String := if a = "" then b else a

/-- Python `int(s)` for nonnegative decimal strings; `none` models `ValueError`. -/
def pyToNat (s : String) : Option Nat :=
  if s.data ≠ [] ∧ s.data.all Char.isDigit then
    some (s.data.foldl (fun a c => a * 10 + (c.toNat - 48)) 0)
  else none

/-- A guild role (`discord.Role`): identifier and current name. -/
structure Role where
  id : Nat
  name : String
deriving Repr, DecidableEq

/-- A guild member; `display_name` is the server display name, `name` the username;
`roleIds` the roles the member currently holds. -/
structure Member where
  id : Nat
  name : String
  display_name : String
  bot : Bool
  roleIds : List Nat
deriving Repr, DecidableEq

/-- One element of a stored `custom_roles` list: a Python dict that may be
missing either key (`c.get("role_id")`, `c.get("name")`). -/
structure Entry where
  role_id : Option Nat
  name : Option String
deriving Repr, DecidableEq

/-- A stored per-member record, with every key optional (legacy shapes included). -/
structure Info where
  sync_role_id : Option Nat
  role_id : Option Nat
  custom_role_id : Option Nat
  custom_name : Option String
  custom_roles : Option (List Entry)
deriving Repr, DecidableEq

/-- The empty dict `{}`. -/
def Info.empty : Info := ⟨none, none, none, none, none⟩

/-- The normalized shape `{"sync_role_id": ..., "custom_roles": [...]}`. -/
structure NInfo where
  sync_role_id : Option Nat
  custom_roles : List Entry
deriving Repr, DecidableEq

/-- The dict written back to storage by the cog: exactly the two current keys. -/
def NInfo.toInfo (n : NInfo) : Info := ⟨n.sync_role_id, none, none, none, some n.custom_roles⟩

/-- Python `(old_name or "custom")` where `old_name` may be missing. -/
def optStrOr (a : Option String) (b : String) : String :=
  match a with
  | some s => if s = "" then b else s
  | none => b

/-- `_normalize_info` (user_handle.py lines 24-38): normalize a stored record to
`{sync_role_id, custom_roles}`, migrating both legacy shapes. -/
def normalize_info (info : Info) : NInfo :=
  let custom_roles := info.custom_roles.getD []
  let old_id := info.custom_role_id
  let old_name := info.custom_name
  let custom_roles :=
    match old_id with
    | some oid =>
        if custom_roles.any (fun c => c.role_id == some oid) then custom_roles
        else custom_roles ++ [⟨some oid, some (optStrOr old_name "custom")⟩]
    | none => custom_roles
  let sync_role_id := info.sync_role_id
  let legacy_role_id := info.role_id
  match legacy_role_id, sync_role_id, custom_roles with
  | some lid, none, [] =>
      match old_name with
      | some s => if s ≠ "" then ⟨none, [⟨some lid, some s⟩]⟩ else ⟨some lid, []⟩
      | none => ⟨some lid, []⟩
  | _, _, _ => ⟨sync_role_id, custom_roles⟩

/-- `_display_name` (lines 41-43): `member.display_name or member.name`. -/
def display_name_of (m : Member) : String := strOr m.display_name m.name

/-- The desired sync-role text, as computed at every call site:
`(_display_name(member) or member.name).strip() or member.name`. -/
def desiredName (m : Member) : String :=
  strOr (pyStrip (strOr (display_name_of m) m.name)) m.name

/-- `f"{base_name} ({i})"`. -/
def mkSuffixName (base : String) (i : Nat) : String := base ++ " (" ++ Nat.repr i ++ ")"

/-- The `i = 2; while f"{base} ({i})" in existing: i += 1` probe loop of
`_unique_role_name`, with explicit fuel (the caller passes enough fuel for
the loop to find a free name, see `probeName_spec`). -/
def probeName (base : String) (names : List String) : Nat → Nat → String
  | i, 0 => mkSuffixName base i
  | i, fuel + 1 =>
      if mkSuffixName base i ∈ names then probeName base names (i + 1) fuel
      else mkSuffixName base i

/-- The working set of `_unique_role_name`: the in-use names, with the excluded
role's current name removed when present. -/
def workingSet (existing : List String) (exclude : Option String) : List String :=
  match exclude with
  | some e => if e ∈ existing then existing.filter (fun x => x ≠ e) else existing
  | none => existing

/-- `_unique_role_name` (lines 243-261): return a role name not in the guild's
in-use set, probing `"{base} (2)"`, `"{base} (3)"`, ... on collision. -/
def unique_role_name (base_name : String) (existing : List String)
    (exclude : Option String) : String :=
  let names := workingSet existing exclude
  if base_name ∈ names then probeName base_name names 2 (names.length + 1)
  else base_name

/-- Whole-guild state: live roles, live members, the per-guild assignment store
(a dict keyed by `str(member.id)`), and the role-name blacklist. -/
structure GState where
  roles : List Role
  members : List Member
  assignments : List (String × Info)
  blacklist : List String
deriving Repr, DecidableEq

/-- `assignments.get(k)`. -/
def getA (l : List (String × Info)) (k : String) : Option Info :=
  (l.find? (fun p => p.1 == k)).map (fun p => p.2)

/-- `assignments[k] = v` (dict update: replace in place, else append). -/
def setA (l : List (String × Info)) (k : String) (v : Info) : List (String × Info) :=
  if (l.find? (fun p => p.1 == k)).isSome then
    l.map (fun p => if p.1 == k then (k, v) else p)
  else l ++ [(k, v)]

/-- `assignments.pop(k, None)`. -/
def popA (l : List (String × Info)) (k : String) : List (String × Info) :=
  l.filter (fun p => p.1 ≠ k)

/-- `guild.get_role(rid)`. -/
def get_role (g : GState) (rid : Nat) : Option Role :=
  g.roles.find? (fun r => r.id == rid)

/-- `guild.get_member(mid)`. -/
def get_member (g : GState) (mid : Nat) : Option Member :=
  g.members.find? (fun m => m.id == mid)

/-- An attempted remote call (recorded whether or not it succeeds). -/
inductive RCall where
  | createRole (name : String)
  | editRole (roleId : Nat) (newName : String)
  | addRoles (memberId : Nat) (roleId : Nat)
  | removeRoles (memberId : Nat) (roleId : Nat)
deriving Repr, DecidableEq

/-- Effect of a successful `role.edit(name=...)` on the guild. -/
def renameRole (g : GState) (rid : Nat) (newName : String) : GState :=
  { g with roles := g.roles.map (fun r => if r.id == rid then { r with name := newName } else r) }

/-- Write an updated live member object back into the guild state. -/
def updMember (g : GState) (m : Member) : GState :=
  { g with members := g.members.map (fun x => if x.id == m.id then m else x) }

/-- Success/failure of the remote calls one `_ensure_*` run may attempt, plus the
id Discord would assign to a newly created role. -/
structure Env where
  createOk : Bool
  freshId : Nat
  editOk : Bool
  addOk : Bool
deriving Repr, DecidableEq

/-- Result of a single-member operation: the returned role id (`None` on
failure), the updated guild state, the updated live member object, and the
trace of attempted remote calls. -/
structure OpOut where
  res : Option Nat
  g : GState
  m : Member
  calls : List RCall
deriving Repr, DecidableEq

/-- `_is_role_name_blacklisted` (lines 132-138): case-insensitive match of the
trimmed name against the trimmed blacklist entries. -/
def is_role_name_blacklisted (bl : List String) (name : String) : Bool :=
  if pyStrip name = "" then false
  else bl.any (fun b => pyLower (pyStrip b) == pyLower (pyStrip name))

/-- `_is_handle_name_taken_by_another` (lines 140-155): another user's tracked
custom role already has this name (case-insensitive). -/
def is_handle_name_taken_by_another (assignments : List (String × Info))
    (current_uid : String) (name : String) : Bool :=
  if pyStrip name = "" then false
  else
    let want := pyLower (pyStrip name)
    assignments.any (fun p =>
      if p.1 == current_uid then false
      else ((normalize_info p.2).custom_roles).any
        (fun c => pyLower (pyStrip (c.name.getD "")) == want))

/-- Lines 296-303 (shared tail of `_ensure_sync_role`): ensure the member holds
the role; an add failure is swallowed and the role is still returned. -/
def membershipPhase (g : GState) (env : Env) (m : Member) (rid : Nat)
    (res : Option Nat) (calls : List RCall) : OpOut :=
  if rid ∈ m.roleIds then ⟨res, g, m, calls⟩
  else if env.addOk then
    let m2 := { m with roleIds := m.roleIds ++ [rid] }
    ⟨res, updMember g m2, m2, calls ++ [RCall.addRoles m.id rid]⟩
  else ⟨res, g, m, calls ++ [RCall.addRoles m.id rid]⟩

/-- `_ensure_sync_role` (lines 263-303): create or rename the member's
display-name role; only the record's `sync_role_id` is written, and only after
a successful create. -/
def ensure_sync_role (g : GState) (env : Env) (m : Member) : OpOut :=
  let uid := Nat.repr m.id
  let info := normalize_info ((getA g.assignments uid).getD Info.empty)
  let name_to_use := desiredName m
  let existing_names := g.roles.map (fun r => r.name)
  let role : Option Role :=
    match info.sync_role_id with
    | some s => if s = 0 then none else get_role g s
    | none => none
  match role with
  | none =>
      let unique_name := unique_role_name name_to_use existing_names none
      if env.createOk then
        let newRole : Role := { id := env.freshId, name := unique_name }
        let g1 : GState := { g with roles := g.roles ++ [newRole] }
        let entry := normalize_info ((getA g1.assignments uid).getD Info.empty)
        let stored := NInfo.toInfo { sync_role_id := some env.freshId, custom_roles := entry.custom_roles }
        let g2 : GState := { g1 with assignments := setA g1.assignments uid stored }
        membershipPhase g2 env m env.freshId (some env.freshId) [RCall.createRole unique_name]
      else ⟨none, g, m, [RCall.createRole unique_name]⟩
  | some r =>
      if r.name = name_to_use then
        membershipPhase g env m r.id (some r.id) []
      else
        let unique_name := unique_role_name name_to_use existing_names (some r.name)
        if env.editOk then
          membershipPhase (renameRole g r.id unique_name) env m r.id (some r.id)
            [RCall.editRole r.id unique_name]
        else
          membershipPhase g env m r.id (some r.id) [RCall.editRole r.id unique_name]

/-- Step 1 of `_ensure_custom_role` (line 309):
`custom_name = (custom_name or "").strip() or member.name`. -/
def canonCustomName (name : String) (m : Member) : String :=
  strOr (pyStrip name) m.name

/-- Python truthiness of a dict-read role id (`if rid:`). -/
def truthyId (o : Option Nat) : Bool :=
  match o with
  | some n => n != 0
  | none => false

/-- `unique_name.split(" (")[0]`: the characters before the first `" ("`. -/
def beforeMarker : List Char → List Char
  | [] => []
  | [c] => [c]
  | ' ' :: '(' :: _ => []
  | c :: rest => c :: beforeMarker rest

/-- Whether `" ("` occurs in the character list. -/
def hasMarker : List Char → Bool
  | [] => false
  | [_] => false
  | ' ' :: '(' :: _ => true
  | _ :: rest => hasMarker rest

/-- Line 334: `unique_name.split(" (")[0].strip() if " (" in unique_name else unique_name`. -/
def baseOfName (s : String) : String :=
  if hasMarker s.data then pyStrip (List.asString (beforeMarker s.data)) else s

/-- `_ensure_custom_role` (lines 305-359): add a new tracked custom-handle role;
reject blacklisted names (including the uniquified name and its base form)
before creating; only append to the stored list after a successful create. -/
def ensure_custom_role (g : GState) (env : Env) (m : Member) (custom_name0 : String) : OpOut :=
  let custom_name := canonCustomName custom_name0 m
  if is_role_name_blacklisted g.blacklist custom_name then ⟨none, g, m, []⟩
  else
    let uid := Nat.repr m.id
    let info := normalize_info ((getA g.assignments uid).getD Info.empty)
    let custom_roles := info.custom_roles
    match custom_roles.find? (fun c => truthyId c.role_id && c.name == some custom_name) with
    | some c =>
        let rid := c.role_id.getD 0
        match get_role g rid with
        | some _ =>
            if rid ∈ m.roleIds then ⟨some rid, g, m, []⟩
            else if env.addOk then
              let m2 := { m with roleIds := m.roleIds ++ [rid] }
              ⟨some rid, updMember g m2, m2, [RCall.addRoles m.id rid]⟩
            else ⟨some rid, g, m, [RCall.addRoles m.id rid]⟩
        | none => ⟨none, g, m, []⟩
    | none =>
        let existing_names := g.roles.map (fun r => r.name)
        let unique_name := unique_role_name custom_name existing_names none
        if is_role_name_blacklisted g.blacklist unique_name then ⟨none, g, m, []⟩
        else if is_role_name_blacklisted g.blacklist (baseOfName unique_name) then ⟨none, g, m, []⟩
        else if env.createOk then
          let newRole : Role := { id := env.freshId, name := unique_name }
          let g1 : GState := { g with roles := g.roles ++ [newRole] }
          let custom_roles2 := custom_roles ++ [⟨some env.freshId, some unique_name⟩]
          let entry := normalize_info ((getA g1.assignments uid).getD Info.empty)
          let stored := NInfo.toInfo { sync_role_id := entry.sync_role_id, custom_roles := custom_roles2 }
          let g2 : GState := { g1 with assignments := setA g1.assignments uid stored }
          membershipPhase g2 env m env.freshId (some env.freshId) [RCall.createRole unique_name]
        else ⟨none, g, m, [RCall.createRole unique_name]⟩

/-- Per-member remote-call outcomes for a whole-guild sweep, keyed by the
record's user-id string. -/
structure SweepEnv where
  editOk : String → Bool
  addOk : String → Bool

/-- Accumulator state threaded through the sweep loop (lines 191-240):
guild state, the `existing_names` working set, the `updated` counter, the
`details` list `(display_name, username, change_text)`, and the call trace. -/
structure SweepSt where
  g : GState
  existing : List String
  updated : Nat
  details : List (String × String × String)
  calls : List RCall
deriving Repr, DecidableEq

/-- One iteration of the `_sync_guild_roles` loop (lines 194-240) on a snapshot
item `(user_id_str, info)`. -/
def sweepItem (env : SweepEnv) (st : SweepSt) (item : String × Info) : SweepSt :=
  let uid := item.1
  let info := normalize_info item.2
  match info.sync_role_id with
  | none => st
  | some rid =>
    if rid = 0 then st
    else
      match get_role st.g rid with
      | none =>
          let a := normalize_info ((getA st.g.assignments uid).getD Info.empty)
          let assignments2 :=
            if a.custom_roles ≠ [] then
              setA st.g.assignments uid (NInfo.toInfo ⟨none, a.custom_roles⟩)
            else popA st.g.assignments uid
          { st with g := { st.g with assignments := assignments2 } }
      | some role =>
          match pyToNat uid with
          | none => st
          | some mid =>
            match get_member st.g mid with
            | none => st
            | some mem =>
              let desired := desiredName mem
              if role.name = desired then
                if rid ∈ mem.roleIds then st
                else
                  let calls2 := st.calls ++ [RCall.addRoles mid rid]
                  if env.addOk uid then
                    let mem2 := { mem with roleIds := mem.roleIds ++ [rid] }
                    ⟨updMember st.g mem2, st.existing, st.updated + 1,
                      st.details ++ [(mem.display_name, mem.name, "sync role re-added to member")],
                      calls2⟩
                  else { st with calls := calls2 }
              else
                let unique_name := unique_role_name desired st.existing (some role.name)
                let calls1 := st.calls ++ [RCall.editRole rid unique_name]
                let st1 : SweepSt :=
                  if env.editOk uid then
                    ⟨renameRole st.g rid unique_name,
                      (st.existing.filter (fun x => x ≠ role.name)) ++ [unique_name],
                      st.updated + 1,
                      st.details ++ [(mem.display_name, mem.name,
                        "sync role renamed to **" ++ unique_name ++ "**")],
                      calls1⟩
                  else { st with calls := calls1 }
                if rid ∈ mem.roleIds then st1
                else
                  let calls2 := st1.calls ++ [RCall.addRoles mid rid]
                  if env.addOk uid then
                    let mem2 := { mem with roleIds := mem.roleIds ++ [rid] }
                    { st1 with g := updMember st1.g mem2, calls := calls2 }
                  else { st1 with calls := calls2 }

/-- `_sync_guild_roles` (lines 180-241): the periodic sweep over one guild.
Returns `none` when the store is empty (`if not data: return None`), else
`(updated, details)`. -/
def sync_guild_roles (g : GState) (env : SweepEnv) :
    Option (Nat × List (String × String × String)) × GState × List RCall :=
  if g.assignments = [] then (none, g, [])
  else
    let start : SweepSt := ⟨g, g.roles.map (fun r => r.name), 0, [], []⟩
    let fin := g.assignments.foldl (sweepItem env) start
    (some (fin.updated, fin.details), fin.g, fin.calls)

/-- Per-role success of `member.remove_roles` during `clear`. -/
structure ClearEnv where
  removeOk : Nat → Bool

/-- Outcome message class of `!userhandle clear`. -/
inductive ClearOutcome where
  | noHandles
  | cleared (removed : List String)
deriving Repr, DecidableEq

/-- The removal loop of `userhandle_clear` (lines 468-478): detach each tracked
role the member holds; failures are swallowed per role. -/
def clearLoop (env : ClearEnv) (mid : Nat) :
    List Entry → GState → Member → List String → List RCall →
      GState × Member × List String × List RCall
  | [], g, m, removed, calls => (g, m, removed, calls)
  | c :: rest, g, m, removed, calls =>
      match c.role_id with
      | some rid =>
          if rid ≠ 0 then
            if (get_role g rid).isSome ∧ rid ∈ m.roleIds then
              let calls2 := calls ++ [RCall.removeRoles mid rid]
              if env.removeOk rid then
                let m2 := { m with roleIds := m.roleIds.filter (fun x => x ≠ rid) }
                clearLoop env mid rest (updMember g m2) m2 (removed ++ [c.name.getD "?"]) calls2
              else clearLoop env mid rest g m removed calls2
            else clearLoop env mid rest g m removed calls
          else clearLoop env mid rest g m removed calls
      | none => clearLoop env mid rest g m removed calls

/-- `userhandle_clear` (lines 457-493): remove all tracked custom handles,
then empty the stored `custom_roles` (pruning the record when `sync_role_id`
is `None`); the sync role is never touched. -/
def userhandle_clear (g : GState) (env : ClearEnv) (m : Member) :
    ClearOutcome × GState × Member × List RCall :=
  let uid := Nat.repr m.id
  let info := normalize_info ((getA g.assignments uid).getD Info.empty)
  let custom_roles := info.custom_roles
  if custom_roles = [] then (ClearOutcome.noHandles, g, m, [])
  else
    let lp := clearLoop env m.id custom_roles g m [] []
    let g1 := lp.1
    let entry := normalize_info ((getA g1.assignments uid).getD Info.empty)
    let assignments2 :=
      if entry.sync_role_id = none then popA g1.assignments uid
      else setA g1.assignments uid (NInfo.toInfo ⟨entry.sync_role_id, []⟩)
    (ClearOutcome.cleared lp.2.2.1, { g1 with assignments := assignments2 }, lp.2.1, lp.2.2.2)

/-- Outcome message class of `!userhandle remove`. -/
inductive RemoveOutcome where
  | emptyName
  | noHandles
  | notTracked (tracked : List String)
  | permissionError
  | removed (name : String)
deriving Repr, DecidableEq

/-- Lines 530-537 of `userhandle_remove`: drop the matched entry from the
tracked list and persist (pruning the record when it is now fully empty). -/
def removeFinish (g1 : GState) (m1 : Member) (calls : List RCall) (uid name : String)
    (custom_roles : List Entry) (idx : Nat) :
    RemoveOutcome × GState × Member × List RCall :=
  let new_list := custom_roles.eraseIdx idx
  let entry := normalize_info ((getA g1.assignments uid).getD Info.empty)
  let assignments2 :=
    if new_list = [] ∧ entry.sync_role_id = none then popA g1.assignments uid
    else setA g1.assignments uid (NInfo.toInfo ⟨entry.sync_role_id, new_list⟩)
  (RemoveOutcome.removed name, { g1 with assignments := assignments2 }, m1, calls)

/-- `userhandle_remove` (lines 495-543): remove one tracked handle by exact
(trimmed) name; a detach failure aborts with an error and leaves the stored
entry untouched. `removeOk` is the success of the single detach call. -/
def userhandle_remove (g : GState) (removeOk : Bool) (m : Member) (name0 : String) :
    RemoveOutcome × GState × Member × List RCall :=
  let name := pyStrip name0
  if name = "" then (RemoveOutcome.emptyName, g, m, [])
  else
    let uid := Nat.repr m.id
    let info := normalize_info ((getA g.assignments uid).getD Info.empty)
    let custom_roles := info.custom_roles
    match custom_roles.findIdx? (fun c => pyStrip (c.name.getD "") == name) with
    | none =>
        let tracked := (custom_roles.filterMap (fun c => c.name)).filter (fun n => n ≠ "")
        if tracked = [] then (RemoveOutcome.noHandles, g, m, [])
        else (RemoveOutcome.notTracked tracked, g, m, [])
    | some idx =>
        let rid? := (custom_roles.getD idx ⟨none, none⟩).role_id
        let role? : Option Role := if truthyId rid? then get_role g (rid?.getD 0) else none
        match role? with
        | some r =>
            if r.id ∈ m.roleIds then
              if removeOk then
                let m2 := { m with roleIds := m.roleIds.filter (fun x => x ≠ r.id) }
                removeFinish (updMember g m2) m2 [RCall.removeRoles m.id r.id] uid name custom_roles idx
              else (RemoveOutcome.permissionError, g, m, [RCall.removeRoles m.id r.id])
            else removeFinish g m [] uid name custom_roles idx
        | none => removeFinish g m [] uid name custom_roles idx

/-- Outcome message class of `!userhandle set`. -/
inductive SetOutcome where
  | emptyName
  | tooLong
  | syncFailed
  | blacklisted
  | takenByAnother
  | customFailed
  | success
deriving Repr, DecidableEq

/-- Environments for the two `_ensure_*` sub-operations run by `set`. -/
structure SetEnv where
  sync : Env
  custom : Env
deriving Repr, DecidableEq

/-- `userhandle_set` (lines 418-455): validate, ensure the sync role, run the
blacklist and cross-member uniqueness checks, then add the custom handle.
A `None` from `_ensure_custom_role` is reported as a blacklist rejection when
the requested name is blacklisted, else as a permission problem. -/
def userhandle_set (g : GState) (env : SetEnv) (m : Member) (name0 : String) :
    SetOutcome × GState × Member × List RCall :=
  let name := pyStrip name0
  if name = "" then (SetOutcome.emptyName, g, m, [])
  else if 100 < name.length then (SetOutcome.tooLong, g, m, [])
  else
    let s := ensure_sync_role g env.sync m
    match s.res with
    | none => (SetOutcome.syncFailed, s.g, s.m, s.calls)
    | some _ =>
        if is_role_name_blacklisted s.g.blacklist name then
          (SetOutcome.blacklisted, s.g, s.m, s.calls)
        else if is_handle_name_taken_by_another s.g.assignments (Nat.repr m.id) name then
          (SetOutcome.takenByAnother, s.g, s.m, s.calls)
        else
          let c := ensure_custom_role s.g env.custom s.m name
          match c.res with
          | none =>
              if is_role_name_blacklisted c.g.blacklist name then
                (SetOutcome.blacklisted, c.g, c.m, s.calls ++ c.calls)
              else (SetOutcome.customFailed, c.g, c.m, s.calls ++ c.calls)
          | some _ => (SetOutcome.success, c.g, c.m, s.calls ++ c.calls)

/-- The per-member loop of the admin `!userhandle sync` command
(lines 659-669): run `_ensure_sync_role` for every snapshot member (looked up
live in the current state), swallowing per-member failures; returns the
`created` counter, the final state, the per-member results and the trace. -/
def userhandle_sync_loop (g0 : GState) (envs : Nat → Env) :
    Nat × GState × List (Option Nat) × List RCall :=
  let members0 := g0.members.filter (fun m => !m.bot)
  members0.enum.foldl
    (fun acc im =>
      let m := (get_member acc.2.1 im.2.id).getD im.2
      let o := ensure_sync_role acc.2.1 (envs im.1) m
      (acc.1 + (if o.res.isSome then 1 else 0), o.g, acc.2.2.1 ++ [o.res], acc.2.2.2 ++ o.calls))
    (0, g0, [], [])

/-- Discriminator: is this remote call a role creation? -/
def RCall.isCreate : RCall → Bool
  | RCall.createRole _ => true
  | _ => false

/-- The identity-relevant part of a member object (everything except the held
role list, which membership adds and removals mutate). -/
def memCore (m : Member) : Nat × String × String × Bool :=
  (m.id, m.name, m.display_name, m.bot)

/-- Structural model of the decimal digit list produced by `Nat.toDigitsCore`. -/
def digitsM (n : Nat) : List Char :=
  if h : n < 10 then [Nat.digitChar n]
  else digitsM (n / 10) ++ [Nat.digitChar (n % 10)]
termination_by n
decreasing_by exact Nat.div_lt_self (by omega) (by omega)

/-! ## Auxiliary facts about decimal numerals (needed for the `" (i)"` probe) -/

theorem digitChar_inj_lt {a b : Nat} (ha : a < 10) (hb : b < 10)
    (h : Nat.digitChar a = Nat.digitChar b) : a = b := by
  have key : ∀ x y : Fin 10, Nat.digitChar x.val = Nat.digitChar y.val → x = y := by decide
  exact congrArg Fin.val (key ⟨a, ha⟩ ⟨b, hb⟩ h)

theorem digitsM_eq (n : Nat) :
    digitsM n = if n < 10 then [Nat.digitChar n]
      else digitsM (n / 10) ++ [Nat.digitChar (n % 10)] := by
  rw [digitsM]
  split <;> simp_all

theorem digitsM_ne_nil (n : Nat) : digitsM n ≠ [] := by
  rw [digitsM_eq]
  split <;> simp

theorem toDigitsCore_eq_digitsM (fuel : Nat) :
    ∀ n acc, n < fuel → Nat.toDigitsCore 10 fuel n acc = digitsM n ++ acc := by
  induction fuel with
  | zero => intro n acc h; omega
  | succ f ih =>
      intro n acc h
      by_cases h10 : n < 10
      · have hdiv : n / 10 = 0 := Nat.div_eq_of_lt h10
        simp only [Nat.toDigitsCore, hdiv, if_pos rfl]
        rw [digitsM]
        simp [h10, Nat.mod_eq_of_lt h10]
      · have hdiv : n / 10 ≠ 0 := by
          intro hc
          have := (Nat.div_eq_zero_iff (by omega)).mp hc
          omega
        have hlt : n / 10 < f := by
          have h1 : n / 10 < n := Nat.div_lt_self (by omega) (by omega)
          omega
        simp only [Nat.toDigitsCore, if_neg hdiv]
        rw [ih _ _ hlt]
        conv_rhs => rw [digitsM]
        simp [h10]

theorem digitsM_inj : ∀ a b : Nat, digitsM a = digitsM b → a = b := by
  intro a
  induction a using Nat.strong_induction_on with
  | _ a ih =>
    intro b h
    rw [digitsM_eq a, digitsM_eq b] at h
    by_cases ha : a < 10 <;> by_cases hb : b < 10
    · rw [if_pos ha, if_pos hb] at h
      exact digitChar_inj_lt ha hb (List.singleton_injective h)
    · rw [if_pos ha, if_neg hb] at h
      have hlen := congrArg List.length h
      have hpos := List.length_pos.mpr (digitsM_ne_nil (b / 10))
      simp only [List.length_append, List.length_singleton] at hlen
      omega
    · rw [if_neg ha, if_pos hb] at h
      have hlen := congrArg List.length h
      have hpos := List.length_pos.mpr (digitsM_ne_nil (a / 10))
      simp only [List.length_append, List.length_singleton] at hlen
      omega
    · rw [if_neg ha, if_neg hb] at h
      obtain ⟨h1, h2⟩ := List.append_inj' h (by simp)
      have hmod : a % 10 = b % 10 :=
        digitChar_inj_lt (Nat.mod_lt _ (by omega)) (Nat.mod_lt _ (by omega))
          (List.singleton_injective h2)
      have hdivlt : a / 10 < a := Nat.div_lt_self (by omega) (by omega)
      have hdiv : a / 10 = b / 10 := ih (a / 10) hdivlt (b / 10) h1
      omega

theorem natRepr_inj {a b : Nat} (h : Nat.repr a = Nat.repr b) : a = b := by
  have hdata := congrArg String.data h
  simp only [Nat.repr, List.asString] at hdata
  have ha : Nat.toDigits 10 a = digitsM a ++ [] :=
    toDigitsCore_eq_digitsM (a + 1) a [] (Nat.lt_succ_self a)
  have hb : Nat.toDigits 10 b = digitsM b ++ [] :=
    toDigitsCore_eq_digitsM (b + 1) b [] (Nat.lt_succ_self b)
  apply digitsM_inj
  have : Nat.toDigits 10 a = Nat.toDigits 10 b := hdata
  rw [ha, hb] at this
  simpa using this

theorem mkSuffixName_inj (base : String) {i j : Nat}
    (h : mkSuffixName base i = mkSuffixName base j) : i = j := by
  unfold mkSuffixName at h
  have hd := congrArg String.data h
  simp only [String.data_append] at hd
  have h2 : (base.data ++ [' ', '(']) ++ ((Nat.repr i).data ++ [')']) =
      (base.data ++ [' ', '(']) ++ ((Nat.repr j).data ++ [')']) := by
    simpa [List.append_assoc] using hd
  have h3 := List.append_cancel_right (List.append_cancel_left h2)
  exact natRepr_inj (String.ext h3)

theorem exists_fresh_suffix (base : String) (names : List String) (i : Nat) :
    ∃ k, k ≤ names.length ∧ mkSuffixName base (i + k) ∉ names := by
  by_contra hc
  push_neg at hc
  have hinj : Function.Injective (fun k => mkSuffixName base (i + k)) := by
    intro x y hxy
    have := mkSuffixName_inj base hxy
    omega
  have hnd : ((List.range (names.length + 1)).map
      (fun k => mkSuffixName base (i + k))).Nodup :=
    List.Nodup.map hinj (List.nodup_range _)
  have hlen : ((List.range (names.length + 1)).map
      (fun k => mkSuffixName base (i + k))).length = names.length + 1 := by simp
  have hsub : ∀ x ∈ (List.range (names.length + 1)).map
      (fun k => mkSuffixName base (i + k)), x ∈ names := by
    intro x hx
    simp only [List.mem_map, List.mem_range] at hx
    obtain ⟨k, hk, rfl⟩ := hx
    exact hc k (by omega)
  have hcard : ((List.range (names.length + 1)).map
      (fun k => mkSuffixName base (i + k))).toFinset.card ≤ names.toFinset.card := by
    apply Finset.card_le_card
    intro x hx
    rw [List.mem_toFinset] at hx ⊢
    exact hsub x hx
  have e1 := List.toFinset_card_of_nodup hnd
  have e2 := List.toFinset_card_le names
  omega

theorem probeName_spec (base : String) (names : List String) :
    ∀ fuel i, (∃ k, k < fuel ∧ mkSuffixName base (i + k) ∉ names) →
      ∃ k, probeName base names i fuel = mkSuffixName base (i + k) ∧
        mkSuffixName base (i + k) ∉ names ∧
        ∀ j, i ≤ j → j < i + k → mkSuffixName base j ∈ names := by
  intro fuel
  induction fuel with
  | zero =>
      rintro i ⟨k, hk, _⟩
      omega
  | succ f ih =>
      rintro i ⟨k, hk, hfree⟩
      by_cases hmem : mkSuffixName base i ∈ names
      · have hk0 : k ≠ 0 := by
          rintro rfl
          simp only [Nat.add_zero] at hfree
          exact hfree hmem
        have hshift : i + 1 + (k - 1) = i + k := by omega
        obtain ⟨k3, heq, hfree3, hmin⟩ :=
          ih (i + 1) ⟨k - 1, by omega, by rw [hshift]; exact hfree⟩
        refine ⟨k3 + 1, ?_, ?_, ?_⟩
        · have hstep : probeName base names i (f + 1) = probeName base names (i + 1) f := by
            simp only [probeName, if_pos hmem]
          rw [hstep, heq]
          congr 1
          omega
        · have : i + (k3 + 1) = i + 1 + k3 := by omega
          rw [this]
          exact hfree3
        · intro j hj1 hj2
          rcases Nat.eq_or_lt_of_le hj1 with heqj | hltj
          · rw [← heqj]
            exact hmem
          · exact hmin j (by omega) (by omega)
      · refine ⟨0, ?_, by simpa using hmem, by omega⟩
        simp only [probeName, if_neg hmem, Nat.add_zero]

theorem unique_role_name_fresh (base : String) (existing : List String)
    (exclude : Option String) :
    unique_role_name base existing exclude ∉ workingSet existing exclude := by
  unfold unique_role_name
  by_cases hmem : base ∈ workingSet existing exclude
  · simp only [if_pos hmem]
    obtain ⟨k0, hk0, hfree⟩ :=
      exists_fresh_suffix base (workingSet existing exclude) 2
    obtain ⟨k, heq, hfree2, _⟩ :=
      probeName_spec base (workingSet existing exclude)
        ((workingSet existing exclude).length + 1) 2 ⟨k0, by omega, hfree⟩
    rw [heq]
    exact hfree2
  · simp only [if_neg hmem]
    exact hmem

/-- C4 part of the development is below; this is the C3 theorem. -/
theorem c3_unique_role_name_correct :
    (∀ base existing e, e ∈ existing →
        unique_role_name base existing (some e) =
          unique_role_name base (existing.filter (fun x => x ≠ e)) none)
    ∧ (∀ base existing e, e ∉ existing →
        unique_role_name base existing (some e) = unique_role_name base existing none)
    ∧ (∀ base existing exclude, unique_role_name base existing exclude ∉ workingSet existing exclude)
    ∧ (∀ base existing exclude, base ∉ workingSet existing exclude →
        unique_role_name base existing exclude = base)
    ∧ (∀ base existing exclude, base ∈ workingSet existing exclude →
        ∃ i, 2 ≤ i ∧ unique_role_name base existing exclude = mkSuffixName base i ∧
          mkSuffixName base i ∉ workingSet existing exclude ∧
          ∀ j, 2 ≤ j → j < i → mkSuffixName base j ∈ workingSet existing exclude)
    ∧ unique_role_name "Alice" ["Alice", "Alice (2)"] none = "Alice (3)" := by
  refine ⟨?_, ?_, unique_role_name_fresh, ?_, ?_, by decide⟩
  · intro base existing e he
    simp only [unique_role_name, workingSet, if_pos he]
  · intro base existing e he
    simp only [unique_role_name, workingSet, if_neg he]
  · intro base existing exclude hnm
    simp only [unique_role_name, if_neg hnm]
  · intro base existing exclude hmem
    simp only [unique_role_name, if_pos hmem]
    obtain ⟨k0, hk0, hfree⟩ :=
      exists_fresh_suffix base (workingSet existing exclude) 2
    obtain ⟨k, heq, hfree2, hmin⟩ :=
      probeName_spec base (workingSet existing exclude)
        ((workingSet existing exclude).length + 1) 2 ⟨k0, by omega, hfree⟩
    exact ⟨2 + k, by omega, heq, hfree2, fun j hj1 hj2 => hmin j hj1 hj2⟩

theorem c3_unique_role_name_correct_witness :
    unique_role_name "Alice" ["Alice", "Alice (2)"] (some "Bob") =
      unique_role_name "Alice" ["Alice", "Alice (2)"] none
    ∧ ∃ i, 2 ≤ i ∧ unique_role_name "Alice" ["Alice", "Alice (2)"] none = mkSuffixName "Alice" i ∧
        mkSuffixName "Alice" i ∉ workingSet ["Alice", "Alice (2)"] none ∧
        ∀ j, 2 ≤ j → j < i → mkSuffixName "Alice" j ∈ workingSet ["Alice", "Alice (2)"] none :=
  ⟨c3_unique_role_name_correct.2.1 "Alice" ["Alice", "Alice (2)"] "Bob" (by decide),
   c3_unique_role_name_correct.2.2.2.2.1 "Alice" ["Alice", "Alice (2)"] none (by decide)⟩

/-- C4: `_normalize_info` is pure and total, maps the legacy record
`{role_id: 5, custom_name: "Bob"}` to `{sync_role_id: None, custom_roles:
[{role_id: 5, name: "Bob"}]}`, and re-normalizing its own output is a no-op
for every input record. -/
theorem c4_normalize_info_legacy_and_idempotent :
    normalize_info ⟨none, some 5, none, some "Bob", none⟩ = ⟨none, [⟨some 5, some "Bob"⟩]⟩
    ∧ ∀ info : Info, normalize_info (NInfo.toInfo (normalize_info info)) = normalize_info info := by
  refine ⟨by decide, ?_⟩
  intro info
  rcases hn : normalize_info info with ⟨s, cr⟩
  cases s <;> simp [normalize_info, NInfo.toInfo]

/-! Frame lemmas for the membership phase and `ensure_sync_role`. -/

theorem membershipPhase_res (g : GState) (env : Env) (m : Member) (rid : Nat)
    (res : Option Nat) (calls : List RCall) :
    (membershipPhase g env m rid res calls).res = res := by
  unfold membershipPhase
  split <;> (try split) <;> rfl

theorem membershipPhase_g_assignments (g : GState) (env : Env) (m : Member) (rid : Nat)
    (res : Option Nat) (calls : List RCall) :
    (membershipPhase g env m rid res calls).g.assignments = g.assignments := by
  unfold membershipPhase updMember
  split <;> (try split) <;> rfl

theorem membershipPhase_g_roles (g : GState) (env : Env) (m : Member) (rid : Nat)
    (res : Option Nat) (calls : List RCall) :
    (membershipPhase g env m rid res calls).g.roles = g.roles := by
  unfold membershipPhase updMember
  split <;> (try split) <;> rfl

theorem membershipPhase_g_blacklist (g : GState) (env : Env) (m : Member) (rid : Nat)
    (res : Option Nat) (calls : List RCall) :
    (membershipPhase g env m rid res calls).g.blacklist = g.blacklist := by
  unfold membershipPhase updMember
  split <;> (try split) <;> rfl

theorem ensure_sync_role_g_blacklist (g : GState) (env : Env) (m : Member) :
    (ensure_sync_role g env m).g.blacklist = g.blacklist := by
  simp only [ensure_sync_role]
  repeat' split
  all_goals first
    | rfl
    | (rw [membershipPhase_g_blacklist]; try rfl)

/-- C2: a blacklisted custom name (case-insensitively, after trimming) is
rejected with no remote call and no state change; every role the custom path
ever creates has a name whose uniquified form and suffix-stripped base form
both passed the blacklist check; and at the command layer a blacklisted `set`
request stops with the distinct blacklist outcome, issuing no calls beyond the
sync-role phase. -/
theorem c2_blacklist_enforcement :
    (∀ g env m name, is_role_name_blacklisted g.blacklist (canonCustomName name m) = true →
        ensure_custom_role g env m name = ⟨none, g, m, []⟩)
    ∧ (∀ g env m name n, RCall.createRole n ∈ (ensure_custom_role g env m name).calls →
        is_role_name_blacklisted g.blacklist n = false ∧
        is_role_name_blacklisted g.blacklist (baseOfName n) = false)
    ∧ (∀ g env m name, is_role_name_blacklisted g.blacklist (pyStrip name) = true →
        pyStrip name ≠ "" → ¬ 100 < (pyStrip name).length →
        ((userhandle_set g env m name).1 = SetOutcome.blacklisted ∨
          (userhandle_set g env m name).1 = SetOutcome.syncFailed) ∧
        (userhandle_set g env m name).2.2.2 = (ensure_sync_role g env.sync m).calls) := by
  refine ⟨?_, ?_, ?_⟩
  · intro g env m name hbl
    simp only [ensure_custom_role, hbl, if_true]
  · intro g env m name n hmem
    unfold ensure_custom_role at hmem
    by_cases hbl : is_role_name_blacklisted g.blacklist (canonCustomName name m) = true
    · simp [hbl] at hmem
    · simp only [Bool.not_eq_true] at hbl
      simp only [hbl, Bool.false_eq_true, if_false] at hmem
      rcases hf : (normalize_info ((getA g.assignments (Nat.repr m.id)).getD Info.empty)).custom_roles.find?
          (fun c => truthyId c.role_id && c.name == some (canonCustomName name m)) with _ | c
      · simp only [hf] at hmem
        by_cases hbl2 : is_role_name_blacklisted g.blacklist
            (unique_role_name (canonCustomName name m) (g.roles.map (fun r => r.name)) none) = true
        · simp [hbl2] at hmem
        · simp only [Bool.not_eq_true] at hbl2
          by_cases hbl3 : is_role_name_blacklisted g.blacklist
              (baseOfName (unique_role_name (canonCustomName name m)
                (g.roles.map (fun r => r.name)) none)) = true
          · simp [hbl2, hbl3] at hmem
          · simp only [Bool.not_eq_true] at hbl3
            simp only [hbl2, hbl3, Bool.false_eq_true, if_false] at hmem
            by_cases hco : env.createOk = true
            · simp only [hco, if_true, membershipPhase] at hmem
              split at hmem <;> (try split at hmem) <;>
              · simp at hmem
                subst hmem
                exact ⟨hbl2, hbl3⟩
            · simp only [Bool.not_eq_true] at hco
              simp only [hco, Bool.false_eq_true, if_false] at hmem
              simp at hmem
              subst hmem
              exact ⟨hbl2, hbl3⟩
      · simp only [hf] at hmem
        rcases hr : get_role g (c.role_id.getD 0) with _ | r
        · simp only [hr] at hmem
          simp at hmem
        · simp only [hr] at hmem
          split at hmem <;> (try split at hmem) <;> simp at hmem
  · intro g env m name hbl hne hlen
    simp only [userhandle_set, if_neg hne, if_neg hlen]
    rcases hs : (ensure_sync_role g env.sync m).res with _ | rid
    · simp [hs]
    · simp [hs, ensure_sync_role_g_blacklist, hbl]

/-- Witness for C2 at concrete inputs: blacklist `["Moderator"]`, requesting
`"moderator"` is rejected with no call and no mutation; a successful create of
`"Zoe"` passed both blacklist checks; a blacklisted `set` stops with the
blacklist outcome after the sync phase. -/
theorem c2_blacklist_enforcement_witness :
    ensure_custom_role ⟨[], [⟨7, "bob", "Bob", false, []⟩], [], ["Moderator"]⟩ ⟨true, 3, true, true⟩
        ⟨7, "bob", "Bob", false, []⟩ "moderator" =
      ⟨none, ⟨[], [⟨7, "bob", "Bob", false, []⟩], [], ["Moderator"]⟩, ⟨7, "bob", "Bob", false, []⟩, []⟩
    ∧ (is_role_name_blacklisted ["Moderator"] "Zoe" = false ∧
        is_role_name_blacklisted ["Moderator"] (baseOfName "Zoe") = false)
    ∧ ((userhandle_set ⟨[], [⟨7, "bob", "Bob", false, []⟩], [], ["Moderator"]⟩
          ⟨⟨true, 3, true, true⟩, ⟨true, 4, true, true⟩⟩ ⟨7, "bob", "Bob", false, []⟩ "Moderator").1 =
            SetOutcome.blacklisted ∨
        (userhandle_set ⟨[], [⟨7, "bob", "Bob", false, []⟩], [], ["Moderator"]⟩
          ⟨⟨true, 3, true, true⟩, ⟨true, 4, true, true⟩⟩ ⟨7, "bob", "Bob", false, []⟩ "Moderator").1 =
            SetOutcome.syncFailed) := by
  refine ⟨c2_blacklist_enforcement.1 _ ⟨true, 3, true, true⟩ _ _ (by decide), ?_, ?_⟩
  · exact c2_blacklist_enforcement.2.1 ⟨[], [⟨7, "bob", "Bob", false, []⟩], [], ["Moderator"]⟩
      ⟨true, 3, true, true⟩ ⟨7, "bob", "Bob", false, []⟩ "Zoe" "Zoe" (by decide)
  · exact (c2_blacklist_enforcement.2.2 _ _ _ _ (by decide) (by decide) (by decide)).1

/-- C9 (implicit): when the member's tracked list already holds an entry whose
name equals the normalized requested name but whose role id no longer resolves,
`_ensure_custom_role` returns the failure sentinel with no remote call and no
state change — a vanished tracked custom label is not re-provisioned. -/
theorem c9_vanished_tracked_custom_not_reprovisioned :
    ∀ g env m name c,
      is_role_name_blacklisted g.blacklist (canonCustomName name m) = false →
      ((normalize_info ((getA g.assignments (Nat.repr m.id)).getD Info.empty)).custom_roles.find?
          (fun c => truthyId c.role_id && c.name == some (canonCustomName name m))) = some c →
      get_role g (c.role_id.getD 0) = none →
      ensure_custom_role g env m name = ⟨none, g, m, []⟩ := by
  intro g env m name c hbl hfind hrole
  unfold ensure_custom_role
  simp only [hbl, Bool.false_eq_true, if_false, hfind, hrole]

/-- Witness for C9: member 7 tracks `{role_id: 99, name: "Ghost"}` but role 99
no longer exists; requesting `"Ghost"` again returns the sentinel untouched. -/
theorem c9_vanished_tracked_custom_not_reprovisioned_witness :
    ensure_custom_role
        ⟨[], [⟨7, "bob", "Bob", false, []⟩],
          [("7", ⟨none, none, none, none, some [⟨some 99, some "Ghost"⟩]⟩)], []⟩
        ⟨true, 3, true, true⟩ ⟨7, "bob", "Bob", false, []⟩ "Ghost" =
      ⟨none,
        ⟨[], [⟨7, "bob", "Bob", false, []⟩],
          [("7", ⟨none, none, none, none, some [⟨some 99, some "Ghost"⟩]⟩)], []⟩,
        ⟨7, "bob", "Bob", false, []⟩, []⟩ :=
  c9_vanished_tracked_custom_not_reprovisioned _ _ _ _ ⟨some 99, some "Ghost"⟩
    (by decide) (by decide) (by decide)

/-- C7: in `_ensure_custom_role` the stored record is written only after a
successful create: with the create call failing, the store is unchanged and a
run that attempted a create returns the failure sentinel; with the create
succeeding, a run that created a role appended exactly `{role_id, name}` to the
member's tracked list (whatever the outcome of the later add-membership call,
which the quantified `env.addOk` covers). -/
theorem c7_store_updated_only_after_successful_create :
    ∀ (g : GState) (env : Env) (m : Member) (name : String),
      ((ensure_custom_role g { env with createOk := false } m name).g.assignments = g.assignments)
      ∧ ((∃ n, RCall.createRole n ∈ (ensure_custom_role g { env with createOk := false } m name).calls) →
          (ensure_custom_role g { env with createOk := false } m name).res = none)
      ∧ (∀ n, RCall.createRole n ∈ (ensure_custom_role g { env with createOk := true } m name).calls →
          (ensure_custom_role g { env with createOk := true } m name).g.assignments =
            setA g.assignments (Nat.repr m.id)
              (NInfo.toInfo ⟨(normalize_info ((getA g.assignments (Nat.repr m.id)).getD Info.empty)).sync_role_id,
                (normalize_info ((getA g.assignments (Nat.repr m.id)).getD Info.empty)).custom_roles ++
                  [⟨some env.freshId, some n⟩]⟩)) := by
  intro g env m name
  refine ⟨?_, ?_, ?_⟩
  · unfold ensure_custom_role
    by_cases hbl : is_role_name_blacklisted g.blacklist (canonCustomName name m) = true
    · simp [hbl]
    · simp only [Bool.not_eq_true] at hbl
      simp only [hbl, Bool.false_eq_true, if_false]
      rcases hf : (normalize_info ((getA g.assignments (Nat.repr m.id)).getD Info.empty)).custom_roles.find?
          (fun c => truthyId c.role_id && c.name == some (canonCustomName name m)) with _ | c
      · simp only [hf]
        by_cases hbl2 : is_role_name_blacklisted g.blacklist
            (unique_role_name (canonCustomName name m) (g.roles.map (fun r => r.name)) none) = true
        · simp [hbl2]
        · simp only [Bool.not_eq_true] at hbl2
          by_cases hbl3 : is_role_name_blacklisted g.blacklist
              (baseOfName (unique_role_name (canonCustomName name m)
                (g.roles.map (fun r => r.name)) none)) = true
          · simp [hbl2, hbl3]
          · simp only [Bool.not_eq_true] at hbl3
            simp [hbl2, hbl3]
      · simp only [hf]
        rcases hr : get_role g (c.role_id.getD 0) with _ | r
        · simp [hr]
        · simp only [hr]
          split <;> (try split) <;> simp [updMember]
  · rintro ⟨n, hmem⟩
    unfold ensure_custom_role at hmem ⊢
    by_cases hbl : is_role_name_blacklisted g.blacklist (canonCustomName name m) = true
    · simp [hbl] at hmem
    · simp only [Bool.not_eq_true] at hbl
      simp only [hbl, Bool.false_eq_true, if_false] at hmem ⊢
      rcases hf : (normalize_info ((getA g.assignments (Nat.repr m.id)).getD Info.empty)).custom_roles.find?
          (fun c => truthyId c.role_id && c.name == some (canonCustomName name m)) with _ | c
      · simp only [hf] at hmem ⊢
        by_cases hbl2 : is_role_name_blacklisted g.blacklist
            (unique_role_name (canonCustomName name m) (g.roles.map (fun r => r.name)) none) = true
        · simp [hbl2] at hmem
        · simp only [Bool.not_eq_true] at hbl2
          by_cases hbl3 : is_role_name_blacklisted g.blacklist
              (baseOfName (unique_role_name (canonCustomName name m)
                (g.roles.map (fun r => r.name)) none)) = true
          · simp [hbl2, hbl3] at hmem
          · simp only [Bool.not_eq_true] at hbl3
            simp [hbl2, hbl3]
      · simp only [hf] at hmem ⊢
        rcases hr : get_role g (c.role_id.getD 0) with _ | r
        · simp only [hr] at hmem
          simp at hmem
        · simp only [hr] at hmem
          split at hmem <;> (try split at hmem) <;> simp at hmem
  · intro n hmem
    unfold ensure_custom_role at hmem ⊢
    by_cases hbl : is_role_name_blacklisted g.blacklist (canonCustomName name m) = true
    · simp [hbl] at hmem
    · simp only [Bool.not_eq_true] at hbl
      simp only [hbl, Bool.false_eq_true, if_false] at hmem ⊢
      rcases hf : (normalize_info ((getA g.assignments (Nat.repr m.id)).getD Info.empty)).custom_roles.find?
          (fun c => truthyId c.role_id && c.name == some (canonCustomName name m)) with _ | c
      · simp only [hf] at hmem ⊢
        by_cases hbl2 : is_role_name_blacklisted g.blacklist
            (unique_role_name (canonCustomName name m) (g.roles.map (fun r => r.name)) none) = true
        · simp [hbl2] at hmem
        · simp only [Bool.not_eq_true] at hbl2
          by_cases hbl3 : is_role_name_blacklisted g.blacklist
              (baseOfName (unique_role_name (canonCustomName name m)
                (g.roles.map (fun r => r.name)) none)) = true
          · simp [hbl2, hbl3] at hmem
          · simp only [Bool.not_eq_true] at hbl3
            simp only [hbl2, hbl3, Bool.false_eq_true, if_false] at hmem ⊢
            simp only [show ({ env with createOk := true } : Env).createOk = true from rfl,
              if_true, membershipPhase] at hmem ⊢
            have hn : n = unique_role_name (canonCustomName name m)
                (g.roles.map (fun r => r.name)) none := by
              split at hmem <;> (try split at hmem) <;> simp at hmem <;> exact hmem
            subst hn
            split <;> (try split) <;> simp [updMember, setA]
      · simp only [hf] at hmem ⊢
        rcases hr : get_role g (c.role_id.getD 0) with _ | r
        · simp only [hr] at hmem
          simp at hmem
        · simp only [hr] at hmem
          split at hmem <;> (try split at hmem) <;> simp at hmem

/-- Witness for C7: with no roles and an empty store, a failed create of `"Zoe"`
leaves the store empty and returns the sentinel; a successful create (with the
add-membership call failing) stores exactly the new `{role_id: 3, name: "Zoe"}`
entry. -/
theorem c7_store_updated_only_after_successful_create_witness :
    ((ensure_custom_role ⟨[], [⟨7, "bob", "Bob", false, []⟩], [], []⟩
        ⟨false, 3, true, false⟩ ⟨7, "bob", "Bob", false, []⟩ "Zoe").g.assignments = [])
    ∧ ((ensure_custom_role ⟨[], [⟨7, "bob", "Bob", false, []⟩], [], []⟩
        ⟨false, 3, true, false⟩ ⟨7, "bob", "Bob", false, []⟩ "Zoe").res = none)
    ∧ ((ensure_custom_role ⟨[], [⟨7, "bob", "Bob", false, []⟩], [], []⟩
        ⟨true, 3, true, false⟩ ⟨7, "bob", "Bob", false, []⟩ "Zoe").g.assignments =
          setA [] "7" (NInfo.toInfo ⟨none, [⟨some 3, some "Zoe"⟩]⟩)) := by
  have h := c7_store_updated_only_after_successful_create
    ⟨[], [⟨7, "bob", "Bob", false, []⟩], [], []⟩ ⟨true, 3, true, false⟩
    ⟨7, "bob", "Bob", false, []⟩ "Zoe"
  refine ⟨h.1, h.2.1 ⟨"Zoe", by decide⟩, ?_⟩
  have h3 := h.2.2 "Zoe" (by decide)
  simpa using h3

/-! Store dictionary lemmas. -/

theorem getA_cons (q : String × Info) (rest : List (String × Info)) (k : String) :
    getA (q :: rest) k = if q.1 = k then some q.2 else getA rest k := by
  unfold getA
  by_cases h : q.1 = k
  · have hb : (q.1 == k) = true := by simpa using h
    rw [List.find?_cons]
    simp [hb, h]
  · have hb : (q.1 == k) = false := by simpa using h
    rw [List.find?_cons]
    simp [hb, h]

theorem getA_append (l l2 : List (String × Info)) (k : String) :
    getA (l ++ l2) k = ((getA l k).map (fun v => v)).or (getA l2 k) := by
  unfold getA
  rw [List.find?_append]
  cases l.find? (fun p => p.1 == k) <;> simp

theorem getA_map_update_self (l : List (String × Info)) (k : String) (v : Info) :
    (l.find? (fun p => p.1 == k)).isSome = true →
    getA (l.map (fun p => if p.1 == k then (k, v) else p)) k = some v := by
  induction l with
  | nil => intro hsome; simp at hsome
  | cons p rest ih =>
      intro hsome
      rw [List.map_cons]
      by_cases hp : p.1 = k
      · have hb : (p.1 == k) = true := by simpa using hp
        rw [if_pos hb, getA_cons, if_pos rfl]
      · have hb : (p.1 == k) = false := by simpa using hp
        rw [if_neg (by simp [hb]), getA_cons, if_neg hp]
        apply ih
        rw [List.find?_cons] at hsome
        simpa [hb] using hsome

theorem getA_setA_self (l : List (String × Info)) (k : String) (v : Info) :
    getA (setA l k v) k = some v := by
  unfold setA
  split
  · rename_i hsome
    exact getA_map_update_self l k v hsome
  · rw [getA_append]
    rename_i hnone
    have hn : getA l k = none := by
      unfold getA
      cases hfind : l.find? (fun p => p.1 == k) with
      | none => rfl
      | some p => simp [hfind] at hnone
    rw [hn]
    rw [getA_cons, if_pos rfl]
    rfl

theorem getA_map_update_ne (l : List (String × Info)) (k k' : String) (v : Info) (h : k' ≠ k) :
    getA (l.map (fun p => if p.1 == k then (k, v) else p)) k' = getA l k' := by
  induction l with
  | nil => rfl
  | cons p rest ih =>
      rw [List.map_cons]
      by_cases hp : p.1 = k
      · have hb : (p.1 == k) = true := by simpa using hp
        have hp' : ¬ p.1 = k' := by rw [hp]; exact fun hc => h hc.symm
        rw [if_pos hb, getA_cons, getA_cons, if_neg (Ne.symm h), if_neg hp']
        exact ih
      · have hb : (p.1 == k) = false := by simpa using hp
        rw [if_neg (by simp [hb]), getA_cons, getA_cons]
        by_cases hp' : p.1 = k'
        · rw [if_pos hp', if_pos hp']
        · rw [if_neg hp', if_neg hp']
          exact ih

theorem getA_setA_ne (l : List (String × Info)) (k k' : String) (v : Info) (h : k' ≠ k) :
    getA (setA l k v) k' = getA l k' := by
  unfold setA
  split
  · exact getA_map_update_ne l k k' v h
  · rw [getA_append]
    have h2 : getA [(k, v)] k' = none := by
      rw [getA_cons, if_neg (Ne.symm h)]
      rfl
    rw [h2]
    cases getA l k' <;> rfl

theorem popA_cons_drop (p : String × Info) (rest : List (String × Info)) (k : String)
    (hp : p.1 = k) : popA (p :: rest) k = popA rest k := by
  simp [popA, hp]

theorem popA_cons_keep (p : String × Info) (rest : List (String × Info)) (k : String)
    (hp : ¬ p.1 = k) : popA (p :: rest) k = p :: popA rest k := by
  simp [popA, hp]

theorem getA_popA_self (l : List (String × Info)) (k : String) :
    getA (popA l k) k = none := by
  induction l with
  | nil => rfl
  | cons p rest ih =>
      by_cases hp : p.1 = k
      · rw [popA_cons_drop p rest k hp]
        exact ih
      · rw [popA_cons_keep p rest k hp, getA_cons, if_neg hp]
        exact ih

theorem getA_popA_ne (l : List (String × Info)) (k k' : String) (h : k' ≠ k) :
    getA (popA l k) k' = getA l k' := by
  induction l with
  | nil => rfl
  | cons p rest ih =>
      by_cases hp : p.1 = k
      · have hp' : ¬ p.1 = k' := by rw [hp]; exact fun hc => h hc.symm
        rw [popA_cons_drop p rest k hp, getA_cons, if_neg hp']
        exact ih
      · rw [popA_cons_keep p rest k hp, getA_cons, getA_cons]
        by_cases hp' : p.1 = k'
        · rw [if_pos hp', if_pos hp']
        · rw [if_neg hp', if_neg hp']
          exact ih

theorem get_role_id (g : GState) (rid : Nat) (r : Role) (h : get_role g rid = some r) :
    r.id = rid := by
  have := List.find?_some h
  simpa using this

theorem updMember_mem_other (g : GState) (m' : Member) (x : Member)
    (hx : x ∈ g.members) (hne : x.id ≠ m'.id) : x ∈ (updMember g m').members := by
  unfold updMember
  have hmm := List.mem_map_of_mem (fun y => if y.id == m'.id then m' else y) hx
  simpa [hne] using hmm

/-- With every detach failing, the clear loop changes nothing but the trace. -/
theorem clearLoop_allfail (env : ClearEnv) (mid : Nat)
    (henv : ∀ rid, env.removeOk rid = false) :
    ∀ (cs : List Entry) (g : GState) (m : Member) (removed : List String) (calls : List RCall),
      (clearLoop env mid cs g m removed calls).1 = g
      ∧ (clearLoop env mid cs g m removed calls).2.1 = m
      ∧ (clearLoop env mid cs g m removed calls).2.2.1 = removed := by
  intro cs
  induction cs with
  | nil => intro g m removed calls; exact ⟨rfl, rfl, rfl⟩
  | cons c rest ih =>
      intro g m removed calls
      unfold clearLoop
      rcases c.role_id with _ | rid
      · exact ih g m removed calls
      · simp only
        by_cases hz : rid ≠ 0
        · simp only [if_pos hz]
          by_cases hheld : (get_role g rid).isSome ∧ rid ∈ m.roleIds
          · simp only [if_pos hheld, henv rid, Bool.false_eq_true, if_false]
            exact ih g m removed _
          · simp only [if_neg hheld]
            exact ih g m removed calls
        · simp only [if_neg hz]
          exact ih g m removed calls

/-- C10 (implicit): `remove` is atomic on a detach failure — it reports a
permission error and leaves the store untouched — while `clear` swallows
per-role detach failures and still empties the stored list (or prunes the
record) even when nothing was removed from the member. -/
theorem c10_remove_atomic_clear_swallows :
    (∀ (g : GState) (m : Member) (name0 : String) (idx : Nat) (r : Role),
      pyStrip name0 ≠ "" →
      ((normalize_info ((getA g.assignments (Nat.repr m.id)).getD Info.empty)).custom_roles.findIdx?
          (fun c => pyStrip (c.name.getD "") == pyStrip name0)) = some idx →
      truthyId (((normalize_info ((getA g.assignments (Nat.repr m.id)).getD Info.empty)).custom_roles.getD
          idx ⟨none, none⟩).role_id) = true →
      get_role g ((((normalize_info ((getA g.assignments (Nat.repr m.id)).getD Info.empty)).custom_roles.getD
          idx ⟨none, none⟩).role_id).getD 0) = some r →
      r.id ∈ m.roleIds →
      userhandle_remove g false m name0 =
        (RemoveOutcome.permissionError, g, m, [RCall.removeRoles m.id r.id]))
    ∧ (∀ (g : GState) (m : Member),
        (normalize_info ((getA g.assignments (Nat.repr m.id)).getD Info.empty)).custom_roles ≠ [] →
        (userhandle_clear g ⟨fun _ => false⟩ m).1 = ClearOutcome.cleared []
        ∧ (if (normalize_info ((getA g.assignments (Nat.repr m.id)).getD Info.empty)).sync_role_id = none
            then getA (userhandle_clear g ⟨fun _ => false⟩ m).2.1.assignments (Nat.repr m.id) = none
            else getA (userhandle_clear g ⟨fun _ => false⟩ m).2.1.assignments (Nat.repr m.id) =
              some (NInfo.toInfo ⟨(normalize_info ((getA g.assignments
                (Nat.repr m.id)).getD Info.empty)).sync_role_id, []⟩))) := by
  constructor
  · intro g m name0 idx r hname hidx htr hrole hheld
    unfold userhandle_remove
    simp only [if_neg hname, hidx, htr, if_true, hrole, hheld, if_pos hheld,
      Bool.false_eq_true, if_false]
  · intro g m hcs
    unfold userhandle_clear
    simp only [if_neg hcs]
    obtain ⟨hg, hm, hrem⟩ := clearLoop_allfail ⟨fun _ => false⟩ m.id (fun _ => rfl)
      (normalize_info ((getA g.assignments (Nat.repr m.id)).getD Info.empty)).custom_roles g m [] []
    constructor
    · simp only [hrem]
    · rw [hg]
      split
      · rename_i hsync
        simp only [hg, hsync, if_pos rfl, getA_popA_self]
      · rename_i hsync
        simp only [hg, if_neg hsync, getA_setA_self]

/-- Witness for C10: member 7 tracks `{role_id: 20, name: "H1"}` and
`{role_id: 21, name: "H2"}` and holds both roles; with the detach failing,
`remove H1` reports a permission error and leaves the store unchanged, while
`clear` still empties the stored list. -/
theorem c10_remove_atomic_clear_swallows_witness :
    userhandle_remove
        ⟨[⟨10, "A"⟩, ⟨20, "H1"⟩, ⟨21, "H2"⟩], [⟨7, "a", "A", false, [10, 20, 21]⟩],
          [("7", ⟨some 10, none, none, none, some [⟨some 20, some "H1"⟩, ⟨some 21, some "H2"⟩]⟩)], []⟩
        false ⟨7, "a", "A", false, [10, 20, 21]⟩ "H1" =
      (RemoveOutcome.permissionError,
        ⟨[⟨10, "A"⟩, ⟨20, "H1"⟩, ⟨21, "H2"⟩], [⟨7, "a", "A", false, [10, 20, 21]⟩],
          [("7", ⟨some 10, none, none, none, some [⟨some 20, some "H1"⟩, ⟨some 21, some "H2"⟩]⟩)], []⟩,
        ⟨7, "a", "A", false, [10, 20, 21]⟩, [RCall.removeRoles 7 20])
    ∧ (userhandle_clear
        ⟨[⟨10, "A"⟩, ⟨20, "H1"⟩, ⟨21, "H2"⟩], [⟨7, "a", "A", false, [10, 20, 21]⟩],
          [("7", ⟨some 10, none, none, none, some [⟨some 20, some "H1"⟩, ⟨some 21, some "H2"⟩]⟩)], []⟩
        ⟨fun _ => false⟩ ⟨7, "a", "A", false, [10, 20, 21]⟩).1 = ClearOutcome.cleared [] := by
  constructor
  · exact c10_remove_atomic_clear_swallows.1 _ ⟨7, "a", "A", false, [10, 20, 21]⟩ "H1" 0
      ⟨20, "H1"⟩ (by decide) (by decide) (by decide) (by decide) (by decide)
  · exact (c10_remove_atomic_clear_swallows.2 _ ⟨7, "a", "A", false, [10, 20, 21]⟩ (by decide)).1

theorem normalize_toInfo (n : NInfo) : normalize_info (NInfo.toInfo n) = n := by
  cases n with
  | mk s cr => cases s <;> simp [normalize_info, NInfo.toInfo]

/-- Everything the clear loop can do: it never touches the store, the guild's
roles, the blacklist, or any member other than the requester, and every call it
records is a detach of one of the listed entries' role ids. -/
theorem clearLoop_spec (env : ClearEnv) (mid : Nat) :
    ∀ (cs : List Entry) (g : GState) (m : Member) (removed : List String) (calls : List RCall),
      ((clearLoop env mid cs g m removed calls).1.assignments = g.assignments)
      ∧ ((clearLoop env mid cs g m removed calls).1.roles = g.roles)
      ∧ ((clearLoop env mid cs g m removed calls).1.blacklist = g.blacklist)
      ∧ ((clearLoop env mid cs g m removed calls).2.1.id = m.id)
      ∧ (∀ x ∈ g.members, x.id ≠ m.id → x ∈ (clearLoop env mid cs g m removed calls).1.members)
      ∧ (∀ call ∈ (clearLoop env mid cs g m removed calls).2.2.2,
          call ∈ calls ∨ ∃ rid, call = RCall.removeRoles mid rid ∧
            some rid ∈ cs.map (fun c => c.role_id)) := by
  intro cs
  induction cs with
  | nil =>
      intro g m removed calls
      exact ⟨rfl, rfl, rfl, rfl, fun x hx _ => hx, fun call hc => Or.inl hc⟩
  | cons c rest ih =>
      intro g m removed calls
      have weaken : ∀ (out : GState × Member × List String × List RCall)
          (base : List RCall),
          (∀ call ∈ out.2.2.2, call ∈ base ∨ ∃ rid, call = RCall.removeRoles mid rid ∧
            some rid ∈ rest.map (fun c => c.role_id)) →
          (∀ call ∈ out.2.2.2, call ∈ base ∨ ∃ rid, call = RCall.removeRoles mid rid ∧
            some rid ∈ (c :: rest).map (fun c => c.role_id)) := by
        intro out base hcalls call hc
        rcases hcalls call hc with h1 | ⟨rid, hr1, hr2⟩
        · exact Or.inl h1
        · exact Or.inr ⟨rid, hr1, by simpa using Or.inr (by simpa using hr2)⟩
      unfold clearLoop
      rcases hrid : c.role_id with _ | rid
      · obtain ⟨h1, h2, h3, h4, h5, h6⟩ := ih g m removed calls
        exact ⟨h1, h2, h3, h4, h5, weaken _ calls h6⟩
      · simp only
        by_cases hz : rid ≠ 0
        · simp only [if_pos hz]
          by_cases hheld : (get_role g rid).isSome ∧ rid ∈ m.roleIds
          · simp only [if_pos hheld]
            by_cases hok : env.removeOk rid = true
            · simp only [hok, if_true]
              obtain ⟨h1, h2, h3, h4, h5, h6⟩ :=
                ih (updMember g { m with roleIds := m.roleIds.filter (fun x => x ≠ rid) })
                  { m with roleIds := m.roleIds.filter (fun x => x ≠ rid) }
                  (removed ++ [c.name.getD "?"]) (calls ++ [RCall.removeRoles mid rid])
              refine ⟨h1, h2, h3, h4, ?_, ?_⟩
              · intro x hx hne
                exact h5 x (updMember_mem_other g _ x hx hne) hne
              · intro call hc
                rcases h6 call hc with h | ⟨rid2, hr1, hr2⟩
                · rcases List.mem_append.mp h with h | h
                  · exact Or.inl h
                  · refine Or.inr ⟨rid, by simpa using h, ?_⟩
                    simp [hrid]
                · exact Or.inr ⟨rid2, hr1, by simpa using Or.inr (by simpa using hr2)⟩
            · simp only [Bool.not_eq_true] at hok
              simp only [hok, Bool.false_eq_true, if_false]
              obtain ⟨h1, h2, h3, h4, h5, h6⟩ := ih g m removed (calls ++ [RCall.removeRoles mid rid])
              refine ⟨h1, h2, h3, h4, h5, ?_⟩
              intro call hc
              rcases h6 call hc with h | ⟨rid2, hr1, hr2⟩
              · rcases List.mem_append.mp h with h | h
                · exact Or.inl h
                · refine Or.inr ⟨rid, by simpa using h, ?_⟩
                  simp [hrid]
              · exact Or.inr ⟨rid2, hr1, by simpa using Or.inr (by simpa using hr2)⟩
          · simp only [if_neg hheld]
            obtain ⟨h1, h2, h3, h4, h5, h6⟩ := ih g m removed calls
            exact ⟨h1, h2, h3, h4, h5, weaken _ calls h6⟩
        · simp only [if_neg hz]
          obtain ⟨h1, h2, h3, h4, h5, h6⟩ := ih g m removed calls
          exact ⟨h1, h2, h3, h4, h5, weaken _ calls h6⟩

theorem removeFinish_frame (g1 : GState) (m1 : Member) (calls : List RCall)
    (uid name : String) (cs : List Entry) (idx : Nat) :
    ((removeFinish g1 m1 calls uid name cs idx).2.1.roles = g1.roles)
    ∧ ((normalize_info ((getA (removeFinish g1 m1 calls uid name cs idx).2.1.assignments
        uid).getD Info.empty)).sync_role_id =
          (normalize_info ((getA g1.assignments uid).getD Info.empty)).sync_role_id)
    ∧ (∀ k, k ≠ uid → getA (removeFinish g1 m1 calls uid name cs idx).2.1.assignments k =
        getA g1.assignments k)
    ∧ ((removeFinish g1 m1 calls uid name cs idx).2.1.members = g1.members)
    ∧ ((removeFinish g1 m1 calls uid name cs idx).2.2.2 = calls) := by
  simp only [removeFinish]
  split
  · rename_i hcond
    refine ⟨?_, ?_, ?_, ?_, ?_⟩ <;>
      first
        | trivial
        | (simp only [getA_popA_self, Option.getD_none]; rw [hcond.2]; rfl)
        | (intro k hk; exact getA_popA_ne g1.assignments uid k hk)
  · refine ⟨?_, ?_, ?_, ?_, ?_⟩ <;>
      first
        | trivial
        | (simp only [getA_setA_self, Option.getD_some, normalize_toInfo])
        | (intro k hk; exact getA_setA_ne g1.assignments uid k _ hk)

/-- C5: the `remove` and `clear` commands never change the member's (normalized)
`sync_role_id`, only ever issue detach calls for the requesting member on role
ids present in the tracked `custom_roles` list, never change any other member's
stored record, never change the guild's role objects, and never change any
other member object. -/
theorem c5_remove_clear_non_interference :
    ∀ (g : GState) (envC : ClearEnv) (rem : Bool) (m : Member) (name0 : String),
      (((normalize_info ((getA (userhandle_clear g envC m).2.1.assignments
          (Nat.repr m.id)).getD Info.empty)).sync_role_id =
            (normalize_info ((getA g.assignments (Nat.repr m.id)).getD Info.empty)).sync_role_id)
        ∧ (∀ call ∈ (userhandle_clear g envC m).2.2.2, ∃ rid,
            call = RCall.removeRoles m.id rid ∧
            some rid ∈ (normalize_info ((getA g.assignments
              (Nat.repr m.id)).getD Info.empty)).custom_roles.map (fun c => c.role_id))
        ∧ (∀ k, k ≠ Nat.repr m.id → getA (userhandle_clear g envC m).2.1.assignments k =
            getA g.assignments k)
        ∧ ((userhandle_clear g envC m).2.1.roles = g.roles)
        ∧ (∀ x ∈ g.members, x.id ≠ m.id → x ∈ (userhandle_clear g envC m).2.1.members))
      ∧ (((normalize_info ((getA (userhandle_remove g rem m name0).2.1.assignments
          (Nat.repr m.id)).getD Info.empty)).sync_role_id =
            (normalize_info ((getA g.assignments (Nat.repr m.id)).getD Info.empty)).sync_role_id)
        ∧ (∀ call ∈ (userhandle_remove g rem m name0).2.2.2, ∃ rid,
            call = RCall.removeRoles m.id rid ∧
            some rid ∈ (normalize_info ((getA g.assignments
              (Nat.repr m.id)).getD Info.empty)).custom_roles.map (fun c => c.role_id))
        ∧ (∀ k, k ≠ Nat.repr m.id → getA (userhandle_remove g rem m name0).2.1.assignments k =
            getA g.assignments k)
        ∧ ((userhandle_remove g rem m name0).2.1.roles = g.roles)
        ∧ (∀ x ∈ g.members, x.id ≠ m.id → x ∈ (userhandle_remove g rem m name0).2.1.members)) := by
  intro g envC rem m name0
  constructor
  · simp only [userhandle_clear]
    split
    · exact ⟨rfl, by simp, fun k hk => rfl, rfl, fun x hx _ => hx⟩
    · rename_i hcs
      obtain ⟨h1, h2, h3, h4, h5, h6⟩ := clearLoop_spec envC m.id
        (normalize_info ((getA g.assignments (Nat.repr m.id)).getD Info.empty)).custom_roles
        g m [] []
      simp only
      refine ⟨?_, ?_, ?_, ?_, ?_⟩
      · rw [h1]
        split
        · rename_i hsync
          simp only [getA_popA_self, Option.getD_none]
          rw [hsync]
          rfl
        · simp only [getA_setA_self, Option.getD_some, normalize_toInfo]
      · intro call hc
        rcases h6 call hc with h | ⟨rid, hr1, hr2⟩
        · simp at h
        · exact ⟨rid, hr1, hr2⟩
      · intro k hk
        rw [h1]
        split
        · rw [getA_popA_ne _ _ _ hk]
        · rw [getA_setA_ne _ _ _ _ hk]
      · exact h2
      · exact h5
  · simp only [userhandle_remove]
    split
    · exact ⟨rfl, by simp, fun k hk => rfl, rfl, fun x hx _ => hx⟩
    · rcases hidx : (normalize_info ((getA g.assignments
          (Nat.repr m.id)).getD Info.empty)).custom_roles.findIdx?
          (fun c => pyStrip (c.name.getD "") == pyStrip name0) with _ | idx
      · simp only [hidx]
        split
        · exact ⟨rfl, by simp, fun k hk => rfl, rfl, fun x hx _ => hx⟩
        · exact ⟨rfl, by simp, fun k hk => rfl, rfl, fun x hx _ => hx⟩
      · simp only [hidx]
        have hlt : idx < (normalize_info ((getA g.assignments
            (Nat.repr m.id)).getD Info.empty)).custom_roles.length :=
          (List.findIdx?_eq_some_iff_findIdx_eq.mp hidx).1
        have hmemidx : (normalize_info ((getA g.assignments
            (Nat.repr m.id)).getD Info.empty)).custom_roles.getD idx ⟨none, none⟩ ∈
              (normalize_info ((getA g.assignments (Nat.repr m.id)).getD Info.empty)).custom_roles := by
          rw [List.getD_eq_getElem _ _ hlt]
          exact List.getElem_mem hlt
        by_cases htr : truthyId ((normalize_info ((getA g.assignments
            (Nat.repr m.id)).getD Info.empty)).custom_roles.getD idx ⟨none, none⟩).role_id = true
        · simp only [htr, if_true]
          rcases hr : get_role g ((((normalize_info ((getA g.assignments
              (Nat.repr m.id)).getD Info.empty)).custom_roles.getD idx
                ⟨none, none⟩).role_id).getD 0) with _ | r
          · simp only [hr]
            obtain ⟨f1, f2, f3, f4, f5⟩ := removeFinish_frame g m [] (Nat.repr m.id)
              (pyStrip name0)
              (normalize_info ((getA g.assignments (Nat.repr m.id)).getD Info.empty)).custom_roles idx
            exact ⟨f2, by rw [f5]; simp, f3, f1, by rw [f4]; exact fun x hx _ => hx⟩
          · simp only [hr]
            have hrid : ((normalize_info ((getA g.assignments
                (Nat.repr m.id)).getD Info.empty)).custom_roles.getD idx ⟨none, none⟩).role_id =
                  some r.id := by
              rcases hcase : ((normalize_info ((getA g.assignments
                  (Nat.repr m.id)).getD Info.empty)).custom_roles.getD idx ⟨none, none⟩).role_id
                  with _ | n
              · rw [hcase] at htr
                simp [truthyId] at htr
              · rw [hcase] at hr
                have := get_role_id g n r (by simpa using hr)
                rw [this]
            have hmemmap : some r.id ∈ (normalize_info ((getA g.assignments
                (Nat.repr m.id)).getD Info.empty)).custom_roles.map (fun c => c.role_id) := by
              rw [← hrid]
              exact List.mem_map_of_mem (fun c => c.role_id) hmemidx
            by_cases hheld : r.id ∈ m.roleIds
            · simp only [if_pos hheld]
              by_cases hok : rem = true
              · simp only [hok, if_true]
                obtain ⟨f1, f2, f3, f4, f5⟩ := removeFinish_frame
                  (updMember g { m with roleIds := m.roleIds.filter (fun x => x ≠ r.id) })
                  { m with roleIds := m.roleIds.filter (fun x => x ≠ r.id) }
                  [RCall.removeRoles m.id r.id] (Nat.repr m.id) (pyStrip name0)
                  (normalize_info ((getA g.assignments
                    (Nat.repr m.id)).getD Info.empty)).custom_roles idx
                refine ⟨f2, ?_, f3, f1, ?_⟩
                · intro call hc
                  rw [f5] at hc
                  simp only [List.mem_singleton] at hc
                  exact ⟨r.id, hc, hmemmap⟩
                · intro x hx hne
                  rw [f4]
                  exact updMember_mem_other g _ x hx hne
              · simp only [Bool.not_eq_true] at hok
                simp only [hok, Bool.false_eq_true, if_false]
                refine ⟨?_, ?_, ?_, ?_, ?_⟩ <;>
                  first
                    | trivial
                    | (intro call hc
                       simp only [List.mem_singleton] at hc
                       exact ⟨r.id, hc, hmemmap⟩)
                    | (intro k hk; first | rfl | trivial)
                    | (intro x hx hne; exact hx)
            · simp only [if_neg hheld]
              obtain ⟨f1, f2, f3, f4, f5⟩ := removeFinish_frame g m [] (Nat.repr m.id)
                (pyStrip name0)
                (normalize_info ((getA g.assignments (Nat.repr m.id)).getD Info.empty)).custom_roles idx
              exact ⟨f2, by rw [f5]; simp, f3, f1, by rw [f4]; exact fun x hx _ => hx⟩
        · simp only [Bool.not_eq_true] at htr
          simp only [htr, Bool.false_eq_true, if_false]
          obtain ⟨f1, f2, f3, f4, f5⟩ := removeFinish_frame g m [] (Nat.repr m.id)
            (pyStrip name0)
            (normalize_info ((getA g.assignments (Nat.repr m.id)).getD Info.empty)).custom_roles idx
          exact ⟨f2, by rw [f5]; simp, f3, f1, by rw [f4]; exact fun x hx _ => hx⟩

/-- Witness for C5: member 7 clears (with one of two detaches failing) and
member 7 removes `"H1"`; role objects, member 9's record and member 9 itself
are untouched, member 7's sync id stays `10`, and every issued call is a
detach of a tracked role id for member 7. -/
theorem c5_remove_clear_non_interference_witness :
    ((normalize_info ((getA (userhandle_clear
        ⟨[⟨10, "A"⟩, ⟨20, "H1"⟩, ⟨21, "H2"⟩],
          [⟨7, "a", "A", false, [10, 20, 21]⟩, ⟨9, "b", "B", false, [33]⟩],
          [("7", ⟨some 10, none, none, none, some [⟨some 20, some "H1"⟩, ⟨some 21, some "H2"⟩]⟩),
           ("9", ⟨some 33, none, none, none, none⟩)], []⟩
        ⟨fun rid => rid == 20⟩ ⟨7, "a", "A", false, [10, 20, 21]⟩).2.1.assignments
          "7").getD Info.empty)).sync_role_id = some 10)
    ∧ (getA (userhandle_clear
        ⟨[⟨10, "A"⟩, ⟨20, "H1"⟩, ⟨21, "H2"⟩],
          [⟨7, "a", "A", false, [10, 20, 21]⟩, ⟨9, "b", "B", false, [33]⟩],
          [("7", ⟨some 10, none, none, none, some [⟨some 20, some "H1"⟩, ⟨some 21, some "H2"⟩]⟩),
           ("9", ⟨some 33, none, none, none, none⟩)], []⟩
        ⟨fun rid => rid == 20⟩ ⟨7, "a", "A", false, [10, 20, 21]⟩).2.1.assignments "9" =
          getA [("7", ⟨some 10, none, none, none, some [⟨some 20, some "H1"⟩, ⟨some 21, some "H2"⟩]⟩),
           ("9", ⟨some 33, none, none, none, none⟩)] "9")
    ∧ ((userhandle_clear
        ⟨[⟨10, "A"⟩, ⟨20, "H1"⟩, ⟨21, "H2"⟩],
          [⟨7, "a", "A", false, [10, 20, 21]⟩, ⟨9, "b", "B", false, [33]⟩],
          [("7", ⟨some 10, none, none, none, some [⟨some 20, some "H1"⟩, ⟨some 21, some "H2"⟩]⟩),
           ("9", ⟨some 33, none, none, none, none⟩)], []⟩
        ⟨fun rid => rid == 20⟩ ⟨7, "a", "A", false, [10, 20, 21]⟩).2.1.roles =
          [⟨10, "A"⟩, ⟨20, "H1"⟩, ⟨21, "H2"⟩])
    ∧ (⟨9, "b", "B", false, [33]⟩ ∈ (userhandle_clear
        ⟨[⟨10, "A"⟩, ⟨20, "H1"⟩, ⟨21, "H2"⟩],
          [⟨7, "a", "A", false, [10, 20, 21]⟩, ⟨9, "b", "B", false, [33]⟩],
          [("7", ⟨some 10, none, none, none, some [⟨some 20, some "H1"⟩, ⟨some 21, some "H2"⟩]⟩),
           ("9", ⟨some 33, none, none, none, none⟩)], []⟩
        ⟨fun rid => rid == 20⟩ ⟨7, "a", "A", false, [10, 20, 21]⟩).2.1.members) := by
  have h := c5_remove_clear_non_interference
    ⟨[⟨10, "A"⟩, ⟨20, "H1"⟩, ⟨21, "H2"⟩],
      [⟨7, "a", "A", false, [10, 20, 21]⟩, ⟨9, "b", "B", false, [33]⟩],
      [("7", ⟨some 10, none, none, none, some [⟨some 20, some "H1"⟩, ⟨some 21, some "H2"⟩]⟩),
       ("9", ⟨some 33, none, none, none, none⟩)], []⟩
    ⟨fun rid => rid == 20⟩ true ⟨7, "a", "A", false, [10, 20, 21]⟩ "H1"
  refine ⟨?_, ?_, ?_, ?_⟩
  · exact h.1.1.trans (by decide)
  · exact h.1.2.2.1 "9" (by decide)
  · exact h.1.2.2.2.1
  · exact h.1.2.2.2.2 ⟨9, "b", "B", false, [33]⟩ (by decide) (by decide)

/-! Sweep lemmas: what one `sweepItem` iteration can and cannot touch. -/

theorem find?_map_pres {α : Type} (l : List α) (f : α → α) (pred : α → Bool)
    (hf : ∀ x, pred (f x) = pred x) :
    (l.map f).find? pred = (l.find? pred).map f := by
  induction l with
  | nil => rfl
  | cons a rest ih =>
      rw [List.map_cons, List.find?_cons, List.find?_cons, hf a]
      cases pred a <;> simp [ih]

theorem get_role_renameRole (g : GState) (x : Nat) (nm : String) (rid : Nat) :
    get_role (renameRole g x nm) rid =
      (get_role g rid).map (fun r => if r.id == x then { r with name := nm } else r) := by
  unfold get_role renameRole
  exact find?_map_pres g.roles _ _ (fun r => by by_cases h : r.id = x <;> simp [h])

theorem get_role_renameRole_ne (g : GState) (x : Nat) (nm : String) (rid : Nat)
    (hne : x ≠ rid) : get_role (renameRole g x nm) rid = get_role g rid := by
  rw [get_role_renameRole]
  cases hr : get_role g rid with
  | none => rfl
  | some r =>
      have hid := get_role_id g rid r hr
      simp [hid, Ne.symm hne]

theorem get_role_updMember (g : GState) (m2 : Member) (rid : Nat) :
    get_role (updMember g m2) rid = get_role g rid := rfl

theorem get_member_id (g : GState) (mid : Nat) (mm : Member)
    (h : get_member g mid = some mm) : mm.id = mid := by
  have := List.find?_some h
  simpa using this

theorem get_member_updMember_ne (g : GState) (m2 : Member) (mid : Nat)
    (hne : m2.id ≠ mid) : get_member (updMember g m2) mid = get_member g mid := by
  unfold get_member updMember
  rw [find?_map_pres g.members _ _ (fun x => by by_cases h : x.id = m2.id <;> simp [h, hne])]
  cases hm : g.members.find? (fun m => m.id == mid) with
  | none => rfl
  | some mm =>
      have hid : mm.id = mid := by simpa using List.find?_some hm
      simp [hid, Ne.symm hne]

theorem sweepItem_assign_ne (env : SweepEnv) (st : SweepSt) (p : String × Info) (k : String)
    (hk : p.1 ≠ k) :
    getA (sweepItem env st p).g.assignments k = getA st.g.assignments k := by
  simp only [sweepItem]
  repeat' split
  all_goals first
    | rfl
    | (exact getA_setA_ne _ p.1 k _ (fun hc => hk hc.symm))
    | (exact getA_popA_ne _ p.1 k (fun hc => hk hc.symm))

theorem sweepItem_get_role_isSome (env : SweepEnv) (st : SweepSt) (p : String × Info)
    (rid : Nat) :
    (get_role (sweepItem env st p).g rid).isSome = (get_role st.g rid).isSome := by
  simp only [sweepItem]
  repeat' split
  all_goals first
    | rfl
    | (rw [show ∀ (x : GState) (m2 : Member), get_role (updMember x m2) rid = get_role x rid
          from fun x m2 => rfl, get_role_renameRole]
       cases get_role st.g rid <;> rfl)
    | (rw [get_role_renameRole]
       cases get_role st.g rid <;> rfl)

theorem sweepItem_get_role_ne (env : SweepEnv) (st : SweepSt) (p : String × Info) (rid : Nat)
    (h : ∀ rid2, (normalize_info p.2).sync_role_id = some rid2 → rid2 ≠ rid) :
    get_role (sweepItem env st p).g rid = get_role st.g rid := by
  rcases hsync : (normalize_info p.2).sync_role_id with _ | rid2
  · simp only [sweepItem, hsync]
  · have hne := h rid2 hsync
    simp only [sweepItem, hsync]
    repeat' split
    all_goals first
      | rfl
      | (exact get_role_renameRole_ne st.g rid2 _ rid hne)

theorem sweepItem_get_member_ne (env : SweepEnv) (st : SweepSt) (p : String × Info) (mid : Nat)
    (h : pyToNat p.1 ≠ some mid) :
    get_member (sweepItem env st p).g mid = get_member st.g mid := by
  rcases hpn : pyToNat p.1 with _ | mid2
  · simp only [sweepItem, hpn]
    repeat' split
    all_goals rfl
  · have hne : mid2 ≠ mid := fun hc => h (hc ▸ hpn)
    simp only [sweepItem, hpn]
    rcases hsync : (normalize_info p.2).sync_role_id with _ | rid2
    · rfl
    · by_cases hz : rid2 = 0
      · simp only [if_pos hz]
      · simp only [if_neg hz]
        rcases hrole : get_role st.g rid2 with _ | role
        · simp only [hrole]
          rfl
        · simp only [hrole]
          rcases hgm : get_member st.g mid2 with _ | mem
          · simp only [hgm]
          · simp only [hgm]
            have hm2 : mem.id ≠ mid := by
              rw [get_member_id st.g mid2 mem hgm]
              exact hne
            repeat' split
            all_goals first
              | rfl
              | (exact get_member_updMember_ne _ _ _ hm2)

theorem sweepItem_calls_monotone (env : SweepEnv) (st : SweepSt) (p : String × Info) :
    ∀ c ∈ st.calls, c ∈ (sweepItem env st p).calls := by
  simp only [sweepItem]
  repeat' split
  all_goals intro c hc
  all_goals simp [hc]

theorem sweepItem_no_new_create (env : SweepEnv) (st : SweepSt) (p : String × Info) :
    ∀ c ∈ (sweepItem env st p).calls, c ∈ st.calls ∨ c.isCreate = false := by
  simp only [sweepItem]
  repeat' split
  all_goals intro c hc
  all_goals first
    | exact Or.inl hc
    | (simp only [List.mem_append, List.mem_singleton] at hc
       rcases hc with hc | hc
       · exact Or.inl hc
       · subst hc; exact Or.inr rfl)
    | (simp only [List.mem_append, List.mem_singleton] at hc
       rcases hc with (hc | hc) | hc
       · exact Or.inl hc
       · subst hc; exact Or.inr rfl
       · subst hc; exact Or.inr rfl)

/-! Fold versions of the sweep lemmas. -/

theorem sweep_fold_assign_ne (env : SweepEnv) (k : String) :
    ∀ (items : List (String × Info)) (st : SweepSt), (∀ q ∈ items, q.1 ≠ k) →
      getA ((items.foldl (sweepItem env) st).g.assignments) k = getA st.g.assignments k := by
  intro items
  induction items with
  | nil => intro st _; rfl
  | cons p rest ih =>
      intro st h
      rw [List.foldl_cons, ih _ (fun q hq => h q (List.mem_cons_of_mem p hq)),
        sweepItem_assign_ne env st p k (h p (List.mem_cons_self p rest))]

theorem sweep_fold_role_isSome (env : SweepEnv) (rid : Nat) :
    ∀ (items : List (String × Info)) (st : SweepSt),
      (get_role ((items.foldl (sweepItem env) st).g) rid).isSome =
        (get_role st.g rid).isSome := by
  intro items
  induction items with
  | nil => intro st; rfl
  | cons p rest ih =>
      intro st
      rw [List.foldl_cons, ih _, sweepItem_get_role_isSome]

theorem sweep_fold_get_role_ne (env : SweepEnv) (rid : Nat) :
    ∀ (items : List (String × Info)) (st : SweepSt),
      (∀ q ∈ items, ∀ rid2, (normalize_info q.2).sync_role_id = some rid2 → rid2 ≠ rid) →
      get_role ((items.foldl (sweepItem env) st).g) rid = get_role st.g rid := by
  intro items
  induction items with
  | nil => intro st _; rfl
  | cons p rest ih =>
      intro st h
      rw [List.foldl_cons, ih _ (fun q hq => h q (List.mem_cons_of_mem p hq)),
        sweepItem_get_role_ne env st p rid (h p (List.mem_cons_self p rest))]

theorem sweep_fold_get_member_ne (env : SweepEnv) (mid : Nat) :
    ∀ (items : List (String × Info)) (st : SweepSt),
      (∀ q ∈ items, pyToNat q.1 ≠ some mid) →
      get_member ((items.foldl (sweepItem env) st).g) mid = get_member st.g mid := by
  intro items
  induction items with
  | nil => intro st _; rfl
  | cons p rest ih =>
      intro st h
      rw [List.foldl_cons, ih _ (fun q hq => h q (List.mem_cons_of_mem p hq)),
        sweepItem_get_member_ne env st p mid (h p (List.mem_cons_self p rest))]

theorem sweep_fold_calls_monotone (env : SweepEnv) :
    ∀ (items : List (String × Info)) (st : SweepSt) (c : RCall),
      c ∈ st.calls → c ∈ (items.foldl (sweepItem env) st).calls := by
  intro items
  induction items with
  | nil => intro st c hc; exact hc
  | cons p rest ih =>
      intro st c hc
      rw [List.foldl_cons]
      exact ih _ c (sweepItem_calls_monotone env st p c hc)

theorem sweep_fold_no_create (env : SweepEnv) :
    ∀ (items : List (String × Info)) (st : SweepSt),
      (∀ c ∈ st.calls, c.isCreate = false) →
      ∀ c ∈ (items.foldl (sweepItem env) st).calls, c.isCreate = false := by
  intro items
  induction items with
  | nil => intro st h; exact h
  | cons p rest ih =>
      intro st h
      rw [List.foldl_cons]
      exact ih _ (fun c hc => (sweepItem_no_new_create env st p c hc).elim (h c) id)

theorem getA_append_not_mem (l₁ : List (String × Info)) (uid : String) (info0 : Info)
    (l₂ : List (String × Info)) (h : uid ∉ l₁.map Prod.fst) :
    getA (l₁ ++ (uid, info0) :: l₂) uid = some info0 := by
  induction l₁ with
  | nil => rw [List.nil_append, getA_cons, if_pos rfl]
  | cons p rest ih =>
      rw [List.cons_append, getA_cons, if_neg]
      · apply ih
        intro hc
        exact h (by rw [List.map_cons]; exact List.mem_cons_of_mem _ hc)
      · intro hc
        exact h (by rw [List.map_cons, hc]; exact List.mem_cons_self _ _)

/-- C6: the periodic sweep never issues a role-create call, and every snapshot
record whose stored `sync_role_id` is a real id that no longer resolves to a
live role ends up with the record pruned (when it had no custom labels) or
persisted with `sync_role_id` cleared and its custom labels kept. -/
theorem c6_sweep_never_creates_and_prunes_dead_records :
    (∀ (g : GState) (env : SweepEnv) (c : RCall),
        c ∈ (sync_guild_roles g env).2.2 → c.isCreate = false)
    ∧ (∀ (g : GState) (env : SweepEnv) (uid : String) (info0 : Info) (rid : Nat),
        (g.assignments.map Prod.fst).Nodup →
        (uid, info0) ∈ g.assignments →
        (normalize_info info0).sync_role_id = some rid →
        rid ≠ 0 →
        get_role g rid = none →
        (if (normalize_info info0).custom_roles = []
         then getA (sync_guild_roles g env).2.1.assignments uid = none
         else getA (sync_guild_roles g env).2.1.assignments uid =
           some (NInfo.toInfo ⟨none, (normalize_info info0).custom_roles⟩))) := by
  constructor
  · intro g env c hc
    unfold sync_guild_roles at hc
    split at hc
    · simp at hc
    · exact sweep_fold_no_create env g.assignments _
        (fun c hc => absurd hc (List.not_mem_nil c)) c hc
  · intro g env uid info0 rid hnd hmem hsync hrid hrole
    obtain ⟨l₁, l₂, hdecomp⟩ := List.append_of_mem hmem
    have hmap : g.assignments.map Prod.fst = l₁.map Prod.fst ++ uid :: l₂.map Prod.fst := by
      rw [hdecomp]
      simp
    have hnd2 : (l₁.map Prod.fst ++ uid :: l₂.map Prod.fst).Nodup := by
      rw [← hmap]
      exact hnd
    have huid : uid ∉ l₁.map Prod.fst ∧ uid ∉ l₂.map Prod.fst := by
      have hmid := List.nodup_middle.mp hnd2
      have hnc := (List.nodup_cons.mp hmid).1
      constructor
      · intro hc
        exact hnc (List.mem_append.mpr (Or.inl hc))
      · intro hc
        exact hnc (List.mem_append.mpr (Or.inr hc))
    have hne₁ : ∀ q ∈ l₁, q.1 ≠ uid := by
      intro q hq hc
      exact huid.1 (hc ▸ List.mem_map_of_mem Prod.fst hq)
    have hne₂ : ∀ q ∈ l₂, q.1 ≠ uid := by
      intro q hq hc
      exact huid.2 (hc ▸ List.mem_map_of_mem Prod.fst hq)
    simp only [sync_guild_roles, if_neg (List.ne_nil_of_mem hmem)]
    rw [hdecomp, List.foldl_append, List.foldl_cons]
    have hstore : getA (List.foldl (sweepItem env)
        ⟨g, g.roles.map (fun r => r.name), 0, [], []⟩ l₁).g.assignments uid = some info0 := by
      rw [sweep_fold_assign_ne env uid l₁ _ hne₁]
      show getA g.assignments uid = some info0
      rw [hdecomp]
      exact getA_append_not_mem l₁ uid info0 l₂ huid.1
    have hrole₁ : get_role (List.foldl (sweepItem env)
        ⟨g, g.roles.map (fun r => r.name), 0, [], []⟩ l₁).g rid = none := by
      have hs := sweep_fold_role_isSome env rid l₁ ⟨g, g.roles.map (fun r => r.name), 0, [], []⟩
      rw [show get_role (⟨g, g.roles.map (fun r => r.name), 0, [], []⟩ : SweepSt).g rid =
        get_role g rid from rfl, hrole] at hs
      cases hgr : get_role (List.foldl (sweepItem env)
          ⟨g, g.roles.map (fun r => r.name), 0, [], []⟩ l₁).g rid
      · rfl
      · rw [hgr] at hs
        simp at hs
    have hitem : getA (sweepItem env (List.foldl (sweepItem env)
        ⟨g, g.roles.map (fun r => r.name), 0, [], []⟩ l₁) (uid, info0)).g.assignments uid =
        (if (normalize_info info0).custom_roles = [] then none
         else some (NInfo.toInfo ⟨none, (normalize_info info0).custom_roles⟩)) := by
      simp only [sweepItem, hsync, if_neg hrid, hrole₁, hstore, Option.getD_some]
      split
      · rename_i hcs
        rw [getA_setA_self]
        try rw [if_neg hcs]
      · rename_i hcs
        rw [getA_popA_self]
        try rw [if_pos (not_ne_iff.mp hcs)]
    split
    · rename_i hcs
      rw [sweep_fold_assign_ne env uid l₂ _ hne₂, hitem, if_pos hcs]
    · rename_i hcs
      rw [sweep_fold_assign_ne env uid l₂ _ hne₂, hitem, if_neg hcs]

/-- Witness for C6: a rename the sweep issues is not a create; a dead record
with no custom labels is pruned; a dead record with one custom label is kept
with `sync_role_id` cleared. -/
theorem c6_sweep_never_creates_and_prunes_dead_records_witness :
    RCall.isCreate (RCall.editRole 10 "New1") = false
    ∧ getA (sync_guild_roles
        ⟨[], [], [("7", ⟨some 99, none, none, none, some []⟩),
          ("8", ⟨some 98, none, none, none, some [⟨some 5, some "K"⟩]⟩)], []⟩
        ⟨fun _ => true, fun _ => true⟩).2.1.assignments "7" = none
    ∧ getA (sync_guild_roles
        ⟨[], [], [("7", ⟨some 99, none, none, none, some []⟩),
          ("8", ⟨some 98, none, none, none, some [⟨some 5, some "K"⟩]⟩)], []⟩
        ⟨fun _ => true, fun _ => true⟩).2.1.assignments "8" =
          some (NInfo.toInfo ⟨none, [⟨some 5, some "K"⟩]⟩) := by
  refine ⟨?_, ?_, ?_⟩
  · exact c6_sweep_never_creates_and_prunes_dead_records.1
      ⟨[⟨10, "old1"⟩], [⟨1, "u1", "New1", false, [10]⟩], [("1", ⟨some 10, none, none, none, none⟩)], []⟩
      ⟨fun _ => true, fun _ => true⟩ (RCall.editRole 10 "New1") (by decide)
  · have h := c6_sweep_never_creates_and_prunes_dead_records.2
      ⟨[], [], [("7", ⟨some 99, none, none, none, some []⟩),
        ("8", ⟨some 98, none, none, none, some [⟨some 5, some "K"⟩]⟩)], []⟩
      ⟨fun _ => true, fun _ => true⟩ "7" ⟨some 99, none, none, none, some []⟩ 99
      (by decide) (by decide) (by decide) (by decide) (by decide)
    simpa using h
  · have h := c6_sweep_never_creates_and_prunes_dead_records.2
      ⟨[], [], [("7", ⟨some 99, none, none, none, some []⟩),
        ("8", ⟨some 98, none, none, none, some [⟨some 5, some "K"⟩]⟩)], []⟩
      ⟨fun _ => true, fun _ => true⟩ "8" ⟨some 98, none, none, none, some [⟨some 5, some "K"⟩]⟩ 98
      (by decide) (by decide) (by decide) (by decide) (by decide)
    simpa using h

theorem sync_loop_results_length (envs : Nat → Env) :
    ∀ (items : List (Nat × Member)) (acc : Nat × GState × List (Option Nat) × List RCall),
      ((items.foldl (fun acc im =>
          let m := (get_member acc.2.1 im.2.id).getD im.2
          let o := ensure_sync_role acc.2.1 (envs im.1) m
          (acc.1 + (if o.res.isSome then 1 else 0), o.g, acc.2.2.1 ++ [o.res],
            acc.2.2.2 ++ o.calls)) acc).2.2.1).length =
        acc.2.2.1.length + items.length := by
  intro items
  induction items with
  | nil => intro acc; simp
  | cons p rest ih =>
      intro acc
      rw [List.foldl_cons, ih]
      simp
      omega

/-- C8: whatever the per-member remote-call outcomes (in particular when one
member's rename fails), the sweep still issues a rename attempt for every other
record that needs one; and the admin full-sync loop produces a per-member
result for every non-bot member, whatever the per-member environments — one bad
record cannot abort the batch. -/
theorem c8_per_item_failure_containment :
    (∀ (g : GState) (env : SweepEnv) (l₁ l₂ : List (String × Info)) (uid : String)
        (info0 : Info) (rid : Nat) (role0 : Role) (mid : Nat) (mem0 : Member),
      g.assignments = l₁ ++ (uid, info0) :: l₂ →
      (normalize_info info0).sync_role_id = some rid →
      rid ≠ 0 →
      get_role g rid = some role0 →
      (∀ q ∈ l₁, ∀ rid2, (normalize_info q.2).sync_role_id = some rid2 → rid2 ≠ rid) →
      pyToNat uid = some mid →
      get_member g mid = some mem0 →
      (∀ q ∈ l₁, pyToNat q.1 ≠ some mid) →
      role0.name ≠ desiredName mem0 →
      ∃ nm, RCall.editRole rid nm ∈ (sync_guild_roles g env).2.2)
    ∧ (∀ (g : GState) (envs : Nat → Env),
        (userhandle_sync_loop g envs).2.2.1.length =
          (g.members.filter (fun m => !m.bot)).length) := by
  constructor
  · intro g env l₁ l₂ uid info0 rid role0 mid mem0 hdecomp hsync hrid hrole hne₁ hpn hmem0
      hpn₁ hname
    have hmem : (uid, info0) ∈ g.assignments := by
      rw [hdecomp]
      exact List.mem_append.mpr (Or.inr (List.mem_cons_self _ _))
    simp only [sync_guild_roles, if_neg (List.ne_nil_of_mem hmem)]
    rw [hdecomp, List.foldl_append, List.foldl_cons]
    have hrole₁ : get_role (List.foldl (sweepItem env)
        ⟨g, g.roles.map (fun r => r.name), 0, [], []⟩ l₁).g rid = some role0 := by
      rw [sweep_fold_get_role_ne env rid l₁ _ hne₁]
      exact hrole
    have hmem₁ : get_member (List.foldl (sweepItem env)
        ⟨g, g.roles.map (fun r => r.name), 0, [], []⟩ l₁).g mid = some mem0 := by
      rw [sweep_fold_get_member_ne env mid l₁ _ hpn₁]
      exact hmem0
    refine ⟨unique_role_name (desiredName mem0)
      (List.foldl (sweepItem env) ⟨g, g.roles.map (fun r => r.name), 0, [], []⟩ l₁).existing
      (some role0.name), ?_⟩
    apply sweep_fold_calls_monotone env l₂
    simp only [sweepItem, hsync, if_neg hrid, hrole₁, hpn, hmem₁, if_neg hname]
    repeat' split
    all_goals simp
  · intro g envs
    simp only [userhandle_sync_loop]
    rw [sync_loop_results_length]
    simp

/-- Witness for C8: two members both needing a rename; member 1's edit fails,
yet the sweep still attempts the rename of member 2's role; the full-sync loop
over the same guild (with member 1's calls all failing) produces one result per
non-bot member. -/
theorem c8_per_item_failure_containment_witness :
    (∃ nm, RCall.editRole 11 nm ∈ (sync_guild_roles
      ⟨[⟨10, "old1"⟩, ⟨11, "old2"⟩],
        [⟨1, "u1", "New1", false, [10]⟩, ⟨2, "u2", "New2", false, [11]⟩],
        [("1", ⟨some 10, none, none, none, none⟩), ("2", ⟨some 11, none, none, none, none⟩)], []⟩
      ⟨fun u => u != "1", fun _ => true⟩).2.2)
    ∧ (userhandle_sync_loop
        ⟨[⟨10, "old1"⟩, ⟨11, "old2"⟩],
          [⟨1, "u1", "New1", false, [10]⟩, ⟨2, "u2", "New2", false, [11]⟩],
          [("1", ⟨some 10, none, none, none, none⟩), ("2", ⟨some 11, none, none, none, none⟩)], []⟩
        (fun i => if i = 0 then ⟨false, 90, false, false⟩ else ⟨true, 91, true, true⟩)).2.2.1.length = 2 := by
  constructor
  · apply c8_per_item_failure_containment.1
      ⟨[⟨10, "old1"⟩, ⟨11, "old2"⟩],
        [⟨1, "u1", "New1", false, [10]⟩, ⟨2, "u2", "New2", false, [11]⟩],
        [("1", ⟨some 10, none, none, none, none⟩), ("2", ⟨some 11, none, none, none, none⟩)], []⟩
      ⟨fun u => u != "1", fun _ => true⟩
      [("1", ⟨some 10, none, none, none, none⟩)] [] "2" ⟨some 11, none, none, none, none⟩
      11 ⟨11, "old2"⟩ 2 ⟨2, "u2", "New2", false, [11]⟩
      rfl (by decide) (by decide) (by decide) ?_ (by decide) (by decide) ?_ (by decide)
    · intro q hq rid2 hr
      simp only [List.mem_singleton] at hq
      subst hq
      have : (normalize_info (⟨some 10, none, none, none, none⟩ : Info)).sync_role_id =
          some 10 := by decide
      rw [this] at hr
      cases hr
      decide
    · intro q hq
      simp only [List.mem_singleton] at hq
      subst hq
      decide
  · exact (c8_per_item_failure_containment.2
      ⟨[⟨10, "old1"⟩, ⟨11, "old2"⟩],
        [⟨1, "u1", "New1", false, [10]⟩, ⟨2, "u2", "New2", false, [11]⟩],
        [("1", ⟨some 10, none, none, none, none⟩), ("2", ⟨some 11, none, none, none, none⟩)], []⟩
      (fun i => if i = 0 then ⟨false, 90, false, false⟩ else ⟨true, 91, true, true⟩)).trans (by decide)

/-! C1 lemma suite: what a successful `ensure_sync_role` run guarantees. -/

theorem membershipPhase_m_id (g : GState) (env : Env) (m : Member) (rid : Nat)
    (res : Option Nat) (calls : List RCall) :
    (membershipPhase g env m rid res calls).m.id = m.id := by
  unfold membershipPhase
  split <;> (try split) <;> rfl

theorem membershipPhase_m_name (g : GState) (env : Env) (m : Member) (rid : Nat)
    (res : Option Nat) (calls : List RCall) :
    (membershipPhase g env m rid res calls).m.name = m.name := by
  unfold membershipPhase
  split <;> (try split) <;> rfl

theorem membershipPhase_m_display (g : GState) (env : Env) (m : Member) (rid : Nat)
    (res : Option Nat) (calls : List RCall) :
    (membershipPhase g env m rid res calls).m.display_name = m.display_name := by
  unfold membershipPhase
  split <;> (try split) <;> rfl

theorem membershipPhase_calls (g : GState) (env : Env) (m : Member) (rid : Nat)
    (res : Option Nat) (calls : List RCall) :
    (membershipPhase g env m rid res calls).calls = calls ∨
      (membershipPhase g env m rid res calls).calls = calls ++ [RCall.addRoles m.id rid] := by
  unfold membershipPhase
  split <;> (try split) <;> simp

theorem desiredName_eq_of (m' m : Member) (h1 : m'.name = m.name)
    (h2 : m'.display_name = m.display_name) : desiredName m' = desiredName m := by
  unfold desiredName display_name_of
  rw [h1, h2]

theorem get_role_append_fresh (roles : List Role) (x : Nat) (nm : String)
    (h : ∀ r ∈ roles, r.id ≠ x) :
    (roles ++ [(⟨x, nm⟩ : Role)]).find? (fun r => r.id == x) = some (⟨x, nm⟩ : Role) := by
  rw [List.find?_append]
  have hn : roles.find? (fun r => r.id == x) = none :=
    List.find?_eq_none.mpr (fun r hr => by simp [h r hr])
  rw [hn]
  simp

theorem get_role_membershipPhase (g : GState) (env : Env) (m : Member) (rid : Nat)
    (res : Option Nat) (calls : List RCall) (x : Nat) :
    get_role (membershipPhase g env m rid res calls).g x = get_role g x := by
  unfold get_role
  rw [membershipPhase_g_roles]

theorem get_role_create (g : GState) (newRole : Role)
    (h : ∀ r ∈ g.roles, r.id ≠ newRole.id) :
    get_role { g with roles := g.roles ++ [newRole] } newRole.id = some newRole := by
  show (g.roles ++ [newRole]).find? (fun r => r.id == newRole.id) = some newRole
  rw [List.find?_append]
  have hn : g.roles.find? (fun r => r.id == newRole.id) = none :=
    List.find?_eq_none.mpr (fun r hr => by simp [h r hr])
  rw [hn]
  simp

theorem ensure_sync_role_success (g : GState) (env : Env) (m : Member) (rid : Nat)
    (hres : (ensure_sync_role g env m).res = some rid)
    (hfz : env.freshId ≠ 0)
    (hfresh : ∀ r ∈ g.roles, r.id ≠ env.freshId) :
    rid ≠ 0
    ∧ (normalize_info ((getA (ensure_sync_role g env m).g.assignments
        (Nat.repr m.id)).getD Info.empty)).sync_role_id = some rid
    ∧ (∃ r2, get_role (ensure_sync_role g env m).g rid = some r2)
    ∧ (ensure_sync_role g env m).m.id = m.id
    ∧ desiredName (ensure_sync_role g env m).m = desiredName m := by
  rcases hsync : (normalize_info ((getA g.assignments (Nat.repr m.id)).getD
      Info.empty)).sync_role_id with _ | s
  · simp only [ensure_sync_role, hsync] at hres ⊢
    by_cases hco : env.createOk = true
    · simp only [hco, if_true] at hres ⊢
      rw [membershipPhase_res] at hres
      have hfid : env.freshId = rid := by
        injection hres
      refine ⟨hfid ▸ hfz, ?_, ?_, membershipPhase_m_id _ _ _ _ _ _, ?_⟩
      · rw [membershipPhase_g_assignments, getA_setA_self]
        simp only [Option.getD_some, normalize_toInfo]
        rw [hfid]
      · refine ⟨(⟨env.freshId, unique_role_name (desiredName m) (g.roles.map (fun r => r.name)) none⟩ : Role), ?_⟩
        rw [get_role_membershipPhase, ← hfid]
        show (g.roles ++ [(⟨env.freshId, unique_role_name (desiredName m) (g.roles.map (fun r => r.name)) none⟩ : Role)]).find? (fun r => r.id == env.freshId) = some (⟨env.freshId, unique_role_name (desiredName m) (g.roles.map (fun r => r.name)) none⟩ : Role)
        exact get_role_append_fresh g.roles env.freshId _ hfresh
      · exact desiredName_eq_of _ m (membershipPhase_m_name _ _ _ _ _ _)
          (membershipPhase_m_display _ _ _ _ _ _)
    · simp only [Bool.not_eq_true] at hco
      simp only [hco, Bool.false_eq_true, if_false] at hres
      cases hres
  · by_cases hz : s = 0
    · simp only [ensure_sync_role, hsync, hz, if_pos rfl] at hres ⊢
      by_cases hco : env.createOk = true
      · simp only [hco, if_true] at hres ⊢
        rw [membershipPhase_res] at hres
        have hfid : env.freshId = rid := by
          injection hres
        refine ⟨hfid ▸ hfz, ?_, ?_, membershipPhase_m_id _ _ _ _ _ _, ?_⟩
        · rw [membershipPhase_g_assignments, getA_setA_self]
          simp only [Option.getD_some, normalize_toInfo]
          rw [hfid]
        · refine ⟨(⟨env.freshId, unique_role_name (desiredName m) (g.roles.map (fun r => r.name)) none⟩ : Role), ?_⟩
          rw [get_role_membershipPhase, ← hfid]
          show (g.roles ++ [(⟨env.freshId, unique_role_name (desiredName m) (g.roles.map (fun r => r.name)) none⟩ : Role)]).find? (fun r => r.id == env.freshId) = some (⟨env.freshId, unique_role_name (desiredName m) (g.roles.map (fun r => r.name)) none⟩ : Role)
          exact get_role_append_fresh g.roles env.freshId _ hfresh
        · exact desiredName_eq_of _ m (membershipPhase_m_name _ _ _ _ _ _)
            (membershipPhase_m_display _ _ _ _ _ _)
      · simp only [Bool.not_eq_true] at hco
        simp only [hco, Bool.false_eq_true, if_false] at hres
        cases hres
    · rcases hgr : get_role g s with _ | r
      · simp only [ensure_sync_role, hsync, if_neg hz, hgr] at hres ⊢
        by_cases hco : env.createOk = true
        · simp only [hco, if_true] at hres ⊢
          rw [membershipPhase_res] at hres
          have hfid : env.freshId = rid := by
            injection hres
          refine ⟨hfid ▸ hfz, ?_, ?_, membershipPhase_m_id _ _ _ _ _ _, ?_⟩
          · rw [membershipPhase_g_assignments, getA_setA_self]
            simp only [Option.getD_some, normalize_toInfo]
            rw [hfid]
          · refine ⟨(⟨env.freshId, unique_role_name (desiredName m) (g.roles.map (fun r => r.name)) none⟩ : Role), ?_⟩
            rw [get_role_membershipPhase, ← hfid]
            show (g.roles ++ [(⟨env.freshId, unique_role_name (desiredName m) (g.roles.map (fun r => r.name)) none⟩ : Role)]).find? (fun r => r.id == env.freshId) = some (⟨env.freshId, unique_role_name (desiredName m) (g.roles.map (fun r => r.name)) none⟩ : Role)
            exact get_role_append_fresh g.roles env.freshId _ hfresh
          · exact desiredName_eq_of _ m (membershipPhase_m_name _ _ _ _ _ _)
              (membershipPhase_m_display _ _ _ _ _ _)
        · simp only [Bool.not_eq_true] at hco
          simp only [hco, Bool.false_eq_true, if_false] at hres
          cases hres
      · have hrid : r.id = s := get_role_id g s r hgr
        simp only [ensure_sync_role, hsync, if_neg hz, hgr] at hres ⊢
        by_cases hname : r.name = desiredName m
        · simp only [if_pos hname] at hres ⊢
          rw [membershipPhase_res] at hres
          have hsr : r.id = rid := by
            injection hres
          refine ⟨by rw [← hsr, hrid]; exact hz, ?_, ?_,
            membershipPhase_m_id _ _ _ _ _ _, ?_⟩
          · rw [membershipPhase_g_assignments, hsync, ← hsr, hrid]
          · refine ⟨r, ?_⟩
            unfold get_role
            rw [membershipPhase_g_roles]
            show g.roles.find? (fun x => x.id == rid) = some r
            rw [← hsr, hrid]
            exact hgr
          · exact desiredName_eq_of _ m (membershipPhase_m_name _ _ _ _ _ _)
              (membershipPhase_m_display _ _ _ _ _ _)
        · simp only [if_neg hname] at hres ⊢
          by_cases hed : env.editOk = true
          · simp only [hed, if_true] at hres ⊢
            rw [membershipPhase_res] at hres
            have hsr : r.id = rid := by
              injection hres
            have hg0 : get_role g rid = some r := by
              rw [← hsr, hrid]
              exact hgr
            refine ⟨by rw [← hsr, hrid]; exact hz, ?_, ?_,
              membershipPhase_m_id _ _ _ _ _ _, ?_⟩
            · rw [membershipPhase_g_assignments]
              show (normalize_info ((getA g.assignments (Nat.repr m.id)).getD
                Info.empty)).sync_role_id = some rid
              rw [hsync, ← hsr, hrid]
            · refine ⟨{ r with name := unique_role_name (desiredName m) (g.roles.map (fun x => x.name)) (some r.name) }, ?_⟩
              rw [get_role_membershipPhase, get_role_renameRole, hg0]
              simp
            · exact desiredName_eq_of _ m (membershipPhase_m_name _ _ _ _ _ _)
                (membershipPhase_m_display _ _ _ _ _ _)
          · simp only [Bool.not_eq_true] at hed
            simp only [hed, Bool.false_eq_true, if_false] at hres ⊢
            rw [membershipPhase_res] at hres
            have hsr : r.id = rid := by
              injection hres
            refine ⟨by rw [← hsr, hrid]; exact hz, ?_, ?_,
              membershipPhase_m_id _ _ _ _ _ _, ?_⟩
            · rw [membershipPhase_g_assignments, hsync, ← hsr, hrid]
            · refine ⟨r, ?_⟩
              unfold get_role
              rw [membershipPhase_g_roles]
              show g.roles.find? (fun x => x.id == rid) = some r
              rw [← hsr, hrid]
              exact hgr
            · exact desiredName_eq_of _ m (membershipPhase_m_name _ _ _ _ _ _)
                (membershipPhase_m_display _ _ _ _ _ _)

/-- C1 counterexample: with a pre-existing unmanaged role `"Alice"` and display
name `"Alice"`, the first call creates the collision-suffixed sync role
`"Alice (2)"`; the second call — run on exactly the state and member object the
first call produced, with no intervening change — issues a `role.edit` call
again (renaming to the same name), because the code compares the role's name to
the raw desired name, not to its uniquified form. -/
theorem c1_counterexample_second_call_edits :
    (ensure_sync_role
      (ensure_sync_role ⟨[⟨1, "Alice"⟩], [⟨7, "alice1", "Alice", false, []⟩], [], []⟩
        ⟨true, 2, true, true⟩ ⟨7, "alice1", "Alice", false, []⟩).g
      ⟨true, 2, true, true⟩
      (ensure_sync_role ⟨[⟨1, "Alice"⟩], [⟨7, "alice1", "Alice", false, []⟩], [], []⟩
        ⟨true, 2, true, true⟩ ⟨7, "alice1", "Alice", false, []⟩).m).calls =
      [RCall.editRole 2 "Alice (2)"]
    ∧ (ensure_sync_role ⟨[⟨1, "Alice"⟩], [⟨7, "alice1", "Alice", false, []⟩], [], []⟩
        ⟨true, 2, true, true⟩ ⟨7, "alice1", "Alice", false, []⟩).res = some 2 := by
  constructor <;> decide

/-- C1 (amended): if the first `_ensure_sync_role` call returns a role
reference (and the environment's fresh id is a real, unused id), then a second
call in succession with no intervening change issues no create call and
returns the same role reference; and provided the role's name after the first
call equals the member's canonical display name (i.e. no collision suffix was
needed and no rename failed), the second call issues no rename call either. -/
theorem c1_amended_second_call_idempotent :
    ∀ (g : GState) (env1 env2 : Env) (m : Member) (rid : Nat),
      (ensure_sync_role g env1 m).res = some rid →
      env1.freshId ≠ 0 →
      (∀ r ∈ g.roles, r.id ≠ env1.freshId) →
      ((ensure_sync_role (ensure_sync_role g env1 m).g env2
          (ensure_sync_role g env1 m).m).res = some rid)
      ∧ (∀ n, RCall.createRole n ∉ (ensure_sync_role (ensure_sync_role g env1 m).g env2
          (ensure_sync_role g env1 m).m).calls)
      ∧ (∀ ro, get_role (ensure_sync_role g env1 m).g rid = some ro →
          ro.name = desiredName m →
          ∀ i nm, RCall.editRole i nm ∉ (ensure_sync_role (ensure_sync_role g env1 m).g env2
            (ensure_sync_role g env1 m).m).calls) := by
  intro g env1 env2 m rid hres hfz hfresh
  obtain ⟨hrid0, hstore, ⟨r2, hr2⟩, hmid, hdes⟩ :=
    ensure_sync_role_success g env1 m rid hres hfz hfresh
  have hrepr : Nat.repr (ensure_sync_role g env1 m).m.id = Nat.repr m.id := by
    rw [hmid]
  have hr2id : r2.id = rid := get_role_id _ _ _ hr2
  have hunf : ∀ P : OpOut → Prop,
      P (ensure_sync_role (ensure_sync_role g env1 m).g env2 (ensure_sync_role g env1 m).m) ↔
      P (if r2.name = desiredName (ensure_sync_role g env1 m).m then
          membershipPhase (ensure_sync_role g env1 m).g env2
            (ensure_sync_role g env1 m).m r2.id (some r2.id) []
        else
          (let unique_name := unique_role_name (desiredName (ensure_sync_role g env1 m).m)
            ((ensure_sync_role g env1 m).g.roles.map (fun r => r.name)) (some r2.name)
           if env2.editOk then
            membershipPhase (renameRole (ensure_sync_role g env1 m).g r2.id unique_name) env2
              (ensure_sync_role g env1 m).m r2.id (some r2.id)
              [RCall.editRole r2.id unique_name]
           else
            membershipPhase (ensure_sync_role g env1 m).g env2
              (ensure_sync_role g env1 m).m r2.id (some r2.id)
              [RCall.editRole r2.id unique_name])) := by
    intro P
    conv_lhs => rw [ensure_sync_role]
    rw [hrepr, hstore]
    simp only [if_neg hrid0, hr2]
  refine ⟨?_, ?_, ?_⟩
  · rw [hunf (fun o => o.res = some rid)]
    by_cases hnm : r2.name = desiredName (ensure_sync_role g env1 m).m
    · rw [if_pos hnm, membershipPhase_res, hr2id]
    · rw [if_neg hnm]
      by_cases hed : env2.editOk = true
      · simp only [hed, if_true, membershipPhase_res, hr2id]
      · simp only [Bool.not_eq_true] at hed
        simp only [hed, Bool.false_eq_true, if_false, membershipPhase_res, hr2id]
  · intro n
    rw [hunf (fun o => RCall.createRole n ∉ o.calls)]
    by_cases hnm : r2.name = desiredName (ensure_sync_role g env1 m).m
    · rw [if_pos hnm]
      rcases membershipPhase_calls (ensure_sync_role g env1 m).g env2
        (ensure_sync_role g env1 m).m r2.id (some r2.id) [] with hc | hc <;> rw [hc] <;> simp
    · rw [if_neg hnm]
      by_cases hed : env2.editOk = true
      · simp only [hed, if_true]
        rcases membershipPhase_calls (renameRole (ensure_sync_role g env1 m).g r2.id _) env2
          (ensure_sync_role g env1 m).m r2.id (some r2.id) _ with hc | hc <;> rw [hc] <;> simp
      · simp only [Bool.not_eq_true] at hed
        simp only [hed, Bool.false_eq_true, if_false]
        rcases membershipPhase_calls (ensure_sync_role g env1 m).g env2
          (ensure_sync_role g env1 m).m r2.id (some r2.id) _ with hc | hc <;> rw [hc] <;> simp
  · intro ro hro hron i nm
    have hror2 : ro = r2 := by
      rw [hro] at hr2
      injection hr2
    have hnm : r2.name = desiredName (ensure_sync_role g env1 m).m := by
      rw [hdes, ← hron, hror2]
    rw [hunf (fun o => RCall.editRole i nm ∉ o.calls), if_pos hnm]
    rcases membershipPhase_calls (ensure_sync_role g env1 m).g env2
      (ensure_sync_role g env1 m).m r2.id (some r2.id) [] with hc | hc <;> rw [hc] <;> simp

/-- Witness for the amended C1: in a guild with no roles, the first call
creates sync role `"Alice"` (no collision); the second call issues no create
and no rename and returns the same role id 2. -/
theorem c1_amended_second_call_idempotent_witness :
    ((ensure_sync_role
        (ensure_sync_role ⟨[], [⟨7, "alice1", "Alice", false, []⟩], [], []⟩
          ⟨true, 2, true, true⟩ ⟨7, "alice1", "Alice", false, []⟩).g
        ⟨true, 2, true, true⟩
        (ensure_sync_role ⟨[], [⟨7, "alice1", "Alice", false, []⟩], [], []⟩
          ⟨true, 2, true, true⟩ ⟨7, "alice1", "Alice", false, []⟩).m).res = some 2)
    ∧ (∀ n, RCall.createRole n ∉ (ensure_sync_role
        (ensure_sync_role ⟨[], [⟨7, "alice1", "Alice", false, []⟩], [], []⟩
          ⟨true, 2, true, true⟩ ⟨7, "alice1", "Alice", false, []⟩).g
        ⟨true, 2, true, true⟩
        (ensure_sync_role ⟨[], [⟨7, "alice1", "Alice", false, []⟩], [], []⟩
          ⟨true, 2, true, true⟩ ⟨7, "alice1", "Alice", false, []⟩).m).calls)
    ∧ (∀ i nm, RCall.editRole i nm ∉ (ensure_sync_role
        (ensure_sync_role ⟨[], [⟨7, "alice1", "Alice", false, []⟩], [], []⟩
          ⟨true, 2, true, true⟩ ⟨7, "alice1", "Alice", false, []⟩).g
        ⟨true, 2, true, true⟩
        (ensure_sync_role ⟨[], [⟨7, "alice1", "Alice", false, []⟩], [], []⟩
          ⟨true, 2, true, true⟩ ⟨7, "alice1", "Alice", false, []⟩).m).calls) := by
  have h := c1_amended_second_call_idempotent
    ⟨[], [⟨7, "alice1", "Alice", false, []⟩], [], []⟩ ⟨true, 2, true, true⟩ ⟨true, 2, true, true⟩
    ⟨7, "alice1", "Alice", false, []⟩ 2 (by decide) (by decide) (by decide)
  exact ⟨h.1, h.2.1, fun i nm => h.2.2 ⟨2, "Alice"⟩ (by decide) (by decide) i nm⟩

end UserHandle
